import Mathlib

/-!
# A shallow embedding of `socow_vector<T, SMALL_SIZE>` (src/socow-vector.h)

The container is a small-object-optimized, copy-on-write vector.  We model:

* the heap of reference-counted buffers (`buffer` in the source) as a list of
  optional `Buffer` records: `operator new` appends a fresh slot, and
  `operator delete` replaces the slot by `none`;
* a container instance (`socow_vector`) as a record with `size_`, `is_small_`,
  the constructed prefix of the inline array `small_`, and the buffer id
  corresponding to the union member `buf_` (meaningful only when `is_small_`
  is false);
* element values are drawn from an arbitrary type `V`; copy construction of an
  element is value copying, and destruction simply drops the value from the
  model (the constructed prefix of an array is represented by a `List V`).

Every operation below is translated from the corresponding member function of
`socow_vector`; the C++ line structure is followed in comments.
-/

set_option linter.unusedVariables false

namespace Socow

variable {V : Type}

/-- The heap header of a shared buffer: `capacity_`, `ref_count_`, and the
list of currently constructed elements sitting in `data_`. -/
structure Buffer (V : Type) where
  cap : Nat
  refCount : Nat
  data : List V
deriving DecidableEq

/-- The heap: slot `i` holds `some b` while buffer number `i` is allocated and
`none` once it has been freed.  `buffer::create_buf` appends a fresh slot. -/
abbrev Heap (V : Type) := List (Option (Buffer V))

/-- Dereference buffer id `i` (`none` if out of range or already freed). -/
def hGet (h : Heap V) (i : Nat) : Option (Buffer V) :=
  match h, i with
  | [], _ => none
  | b :: _, 0 => b
  | _ :: t, n + 1 => hGet t n

/-- Overwrite the heap slot of buffer id `i`. -/
def hSet (h : Heap V) (i : Nat) (x : Option (Buffer V)) : Heap V :=
  match h, i with
  | [], _ => []
  | _ :: t, 0 => x :: t
  | b :: t, n + 1 => b :: hSet t n x

/-- A `socow_vector` instance: `size_`, `is_small_`, the constructed prefix of
the inline array `small_` (meaningful when `isSmall`), and the id of `buf_`
(meaningful when `¬ isSmall`). -/
structure Vec (V : Type) where
  size : Nat
  isSmall : Bool
  small : List V
  bufId : Nat
deriving DecidableEq

/-- `capacity()`: `is_small_ ? SMALL_SIZE : buf_->capacity()`. -/
def capOf (N : Nat) (h : Heap V) (v : Vec V) : Nat :=
  if v.isSmall then N
  else
    match hGet h v.bufId with
    | some b => b.cap
    | none => 0

/-- The sequence visible through const `data()`/`begin()`/`end()`: the first
`size()` constructed elements of the current storage. -/
def elemsOf (h : Heap V) (v : Vec V) : List V :=
  if v.isSmall then v.small.take v.size
  else
    match hGet h v.bufId with
    | some b => b.data.take v.size
    | none => []

/-- `shared_buf()`: `!is_small_ && buf_->ref_count_ > 1`. -/
def sharedBuf (h : Heap V) (v : Vec V) : Bool :=
  !v.isSmall &&
    (match hGet h v.bufId with
     | some b => decide (1 < b.refCount)
     | none => false)

/-- `release_ref(buf)`: decrement the reference count; when it reaches zero the
constructed elements are destroyed and the block is freed (slot becomes
`none`). -/
def releaseRef (h : Heap V) (i : Nat) : Heap V :=
  match hGet h i with
  | none => h
  | some b =>
      if b.refCount ≤ 1 then hSet h i none
      else hSet h i (some { b with refCount := b.refCount - 1 })

/-- `buf_->ref_count_++` (used when adopting a buffer on copy-assignment). -/
def bumpRef (h : Heap V) (i : Nat) : Heap V :=
  match hGet h i with
  | none => h
  | some b => hSet h i (some { b with refCount := b.refCount + 1 })

/-- `container_destroy()`: destroy the inline elements when small, otherwise
release the reference on `buf_`. -/
def containerDestroy (h : Heap V) (v : Vec V) : Heap V :=
  if v.isSmall then h else releaseRef h v.bufId

/-- `copy_to_small(from, size)`: copy `size` elements from `from` into the
inline array, set `is_small_`, release the old buffer.  (On success; the
throwing path is treated in the exception-injection model.) -/
def copyToSmall (h : Heap V) (v : Vec V) (src : List V) (n : Nat) : Heap V × Vec V :=
  let h1 := releaseRef h v.bufId
  (h1, { v with isSmall := true, small := src.take n })

/-- `unshare(new_capacity)`: allocate a fresh buffer of the requested capacity,
copy-construct the current `size()` elements into it, then destroy the old
storage and adopt the new buffer. -/
def unshare (h : Heap V) (v : Vec V) (newCap : Nat) : Heap V × Vec V :=
  let newId := h.length
  let h1 : Heap V := h ++ [some ⟨newCap, 1, elemsOf h v⟩]
  let h2 := containerDestroy h1 v
  (h2, { v with isSmall := false, bufId := newId })

/-- Mutable `data()`: unshare (at the same capacity) when the buffer is shared,
otherwise return the storage unchanged.  `begin()`/`end()` go through this. -/
def dataMut (N : Nat) (h : Heap V) (v : Vec V) : Heap V × Vec V :=
  if sharedBuf h v then unshare h v (capOf N h v) else (h, v)

/-- `operator=` for two distinct objects (the `this == &other` early return is
the identity and is not modeled).  Three branches as in the source:
adopt a big source; `copy_to_small` when the target is big and the source
small; element-wise reconciliation through a temporary when both are small. -/
def assign (h : Heap V) (t s : Vec V) : Heap V × Vec V :=
  if !s.isSmall then
    -- container_destroy(); buf_ = other.buf_; buf_->ref_count_++; is_small_ = false;
    let h1 := containerDestroy h t
    let h2 := bumpRef h1 s.bufId
    (h2, { t with size := s.size, isSmall := false, bufId := s.bufId })
  else if !t.isSmall then
    -- copy_to_small(other.begin(), other.size()); size_ = other.size();
    let p := copyToSmall h t (elemsOf h s) s.size
    (p.1, { p.2 with size := s.size })
  else
    -- both small: tmp gets the overlapping prefix, the tail is copied in or
    -- destroyed, then the prefixes are exchanged by swap_ranges
    let minSize := min t.size s.size
    let tmpL := (elemsOf h s).take minSize
    let t1L :=
      if t.size < s.size then t.small.take t.size ++ (elemsOf h s).drop t.size
      else (t.small.take t.size).take s.size
    let fL := tmpL ++ t1L.drop minSize
    (h, { t with size := s.size, small := fL })

/-- The copy constructor: default-construct then `operator=`. -/
def copyCtor (h : Heap V) (s : Vec V) : Heap V × Vec V :=
  assign h ⟨0, true, [], 0⟩ s

/-- `reserve(new_capacity)`. -/
def reserve (N : Nat) (h : Heap V) (v : Vec V) (newCap : Nat) : Heap V × Vec V :=
  if v.size < newCap then
    if sharedBuf h v && decide (newCap ≤ N) then
      let src := match hGet h v.bufId with | some b => b.data | none => []
      copyToSmall h v src v.size
    else if sharedBuf h v || decide (capOf N h v < newCap) then
      unshare h v newCap
    else (h, v)
  else (h, v)

/-- `shrink_to_fit()`. -/
def shrinkToFit (N : Nat) (h : Heap V) (v : Vec V) : Heap V × Vec V :=
  if !v.isSmall && decide (v.size < capOf N h v) then
    if v.size ≤ N then
      let src := match hGet h v.bufId with | some b => b.data | none => []
      copyToSmall h v src v.size
    else unshare h v v.size
  else (h, v)

/-- `clear()`. -/
def clear (h : Heap V) (v : Vec V) : Heap V × Vec V :=
  if sharedBuf h v then
    -- the instance becomes small and empty: no inline element is constructed
    (releaseRef h v.bufId, { v with size := 0, isSmall := true, small := [] })
  else if v.isSmall then
    (h, { v with size := 0, small := [] })
  else
    match hGet h v.bufId with
    | some b => (hSet h v.bufId (some { b with data := [] }), { v with size := 0 })
    | none => (h, { v with size := 0 })

/-- The body of `swap` once the argument order is normalized so that
`a.size ≤ b.size` (`a` plays `*this`, `b` plays `other`). -/
def swapCore (h : Heap V) (a b : Vec V) : Heap V × Vec V × Vec V :=
  if a.isSmall && b.isSmall then
    -- uninitialized_copy(other.begin() + size(), other.end(), end());
    -- destroy(other.begin() + size(), other.end());
    -- swap(size_, other.size_);
    -- swap_ranges(begin(), begin() + other.size(), other.begin());
    let aL := a.small.take a.size ++ (b.small.take b.size).drop a.size
    let bL := (b.small.take b.size).take a.size
    let aF := bL ++ aL.drop a.size
    let bF := aL.take a.size
    (h, { a with size := b.size, small := aF }, { b with size := a.size, small := bF })
  else
    -- socow_vector tmp(other); other = *this; *this = tmp;  (tmp then dies)
    let p := copyCtor h b
    let q := assign p.1 b a
    let r := assign q.1 a p.2
    let h4 := containerDestroy r.1 p.2
    (h4, r.2, q.2)

/-- `swap(other)` for distinct objects: the larger-sized instance delegates to
the smaller one, then `swapCore` runs. -/
def swapV (h : Heap V) (a b : Vec V) : Heap V × Vec V × Vec V :=
  if b.size < a.size then
    let p := swapCore h b a
    (p.1, p.2.2, p.2.1)
  else swapCore h a b

/-- `std::swap(l[i], l[j])` on the constructed prefix. -/
def listSwap (l : List V) (i j : Nat) : List V :=
  match l[i]?, l[j]? with
  | some a, some b => (l.set i b).set j a
  | _, _ => l

/-- The bubbling loop of in-place `insert`: `while (idx > diff) { swap(data()[idx],
data()[idx-1]); --idx; }`, which runs exactly `idx - diff` times. -/
def bubbleGo (fuel : Nat) (l : List V) (idx : Nat) : List V :=
  match fuel with
  | 0 => l
  | f + 1 => bubbleGo f (listSwap l idx (idx - 1)) (idx - 1)

/-- In-place `insert` bubbling from position `idx` down to position `diff`. -/
def bubbleDown (l : List V) (idx diff : Nat) : List V :=
  bubbleGo (idx - diff) l idx

/-- The shifting loop of in-place `erase`: `while (right < size()) {
swap(data()[left], data()[right]); ++left; ++right; }`, which runs exactly
`n - right` times. -/
def shiftGo (fuel : Nat) (l : List V) (left right : Nat) : List V :=
  match fuel with
  | 0 => l
  | f + 1 => shiftGo f (listSwap l left right) (left + 1) (right + 1)

/-- In-place `erase` shifting, `n` being `size()`. -/
def shiftLoop (l : List V) (left right n : Nat) : List V :=
  shiftGo (n - right) l left right

/-- `insert(pos, value)` with `pos` given as the index `pos - begin()`.
Returns the new heap, the new instance, and the index of the returned
iterator.  Note that in the growth/unshare branch the final
`return begin() + diff` goes through mutable `data()` while the local `tmp`
still co-owns the adopted buffer, so it unshares a second time; `tmp` is
destroyed afterwards. -/
def insert (N : Nat) (h : Heap V) (v : Vec V) (pos : Nat) (x : V) :
    Heap V × Vec V × Nat :=
  let diff := pos
  if v.size == capOf N h v || sharedBuf h v then
    let newCap := if v.size != capOf N h v then capOf N h v else capOf N h v * 2
    let tmpId := h.length
    let nd := (elemsOf h v).take diff ++ x :: (elemsOf h v).drop diff
    let h1 : Heap V := h ++ [some ⟨newCap, 1, nd⟩]
    let tmp : Vec V := ⟨v.size + 1, false, [], tmpId⟩
    let p := assign h1 v tmp            -- *this = tmp;
    let q := dataMut N p.1 p.2          -- return begin() + diff;
    let h4 := containerDestroy q.1 tmp  -- tmp is destroyed
    (h4, q.2, diff)
  else
    -- new (end()) T(value); size_++; then bubble down to diff
    let l1 := bubbleDown (elemsOf h v ++ [x]) v.size diff
    if v.isSmall then
      (h, { v with size := v.size + 1, small := l1 }, diff)
    else
      match hGet h v.bufId with
      | some b =>
          (hSet h v.bufId (some { b with data := l1 }),
           { v with size := v.size + 1 }, diff)
      | none => (h, { v with size := v.size + 1 }, diff)

/-- `erase(first, last)` with the iterators given as indices `left`/`right`.
Returns the new heap, the new instance, and the index of the returned
iterator.  The empty-range branch still evaluates `begin() + diff` through
mutable `data()` (unsharing when shared); the shared branch builds a
replacement instance and `swap`s it in, then `tmp` is destroyed after the
return value is formed. -/
def eraseRange (N : Nat) (h : Heap V) (v : Vec V) (left right : Nat) :
    Heap V × Vec V × Nat :=
  let diff := left
  if left == right then
    let p := dataMut N h v
    (p.1, p.2, diff)
  else if sharedBuf h v then
    let tmpId := h.length
    let bufData := match hGet h v.bufId with | some b => b.data | none => []
    let nd := bufData.take left ++ (bufData.drop right).take (v.size - right)
    let h1 : Heap V := h ++ [some ⟨capOf N h v, 1, nd⟩]
    let tmp : Vec V := ⟨v.size - (right - left), false, [], tmpId⟩
    let p := swapV h1 v tmp
    let q := dataMut N p.1 p.2.1        -- return begin() + diff;
    let h4 := containerDestroy q.1 p.2.2
    (h4, q.2, diff)
  else
    -- in place: shift left by swapping, destroy the vacated tail, shrink
    let l1 := shiftLoop (elemsOf h v) left right v.size
    let newSize := v.size - (right - left)
    if v.isSmall then
      (h, { v with size := newSize, small := l1.take newSize }, diff)
    else
      match hGet h v.bufId with
      | some b =>
          (hSet h v.bufId (some { b with data := l1.take newSize }),
           { v with size := newSize }, diff)
      | none => (h, { v with size := newSize }, diff)

/-- `push_back(value)`: `insert(std::as_const(*this).end(), value)`. -/
def pushBack (N : Nat) (h : Heap V) (v : Vec V) (x : V) : Heap V × Vec V :=
  let p := insert N h v v.size x
  (p.1, p.2.1)

/-- `pop_back()`: `erase(std::as_const(*this).end() - 1)`. -/
def popBack (N : Nat) (h : Heap V) (v : Vec V) : Heap V × Vec V :=
  let p := eraseRange N h v (v.size - 1) v.size
  (p.1, p.2.1)

/-- The number of element copy-constructions performed by `operator=`. -/
def assignCopies (h : Heap V) (t s : Vec V) : Nat :=
  if !s.isSmall then 0
  else if !t.isSmall then s.size
  else min t.size s.size + (if t.size < s.size then s.size - t.size else 0)

/-- The observable state of an instance: `size()`, `capacity()` and the
element values. -/
structure Obs (V : Type) where
  size : Nat
  cap : Nat
  elems : List V
deriving DecidableEq

/-- Project the observable state. -/
def obsOf (N : Nat) (h : Heap V) (v : Vec V) : Obs V :=
  ⟨v.size, capOf N h v, elemsOf h v⟩

/-- Well-formedness of an instance against the heap: the constructed prefix
has length `size()`, `size() ≤ capacity()`, a live buffer when big, positive
buffer capacity, positive reference count. -/
def wfB (N : Nat) (h : Heap V) (v : Vec V) : Bool :=
  if v.isSmall then
    v.small.length == v.size && decide (v.size ≤ N)
  else
    match hGet h v.bufId with
    | some b =>
        b.data.length == v.size && decide (v.size ≤ b.cap) &&
        decide (1 ≤ b.cap) && decide (1 ≤ b.refCount)
    | none => false

/-- Coherence of a pair of distinct instances: if they refer to the same
buffer, its reference count accounts for both. -/
def pairOK (h : Heap V) (a b : Vec V) : Bool :=
  if !a.isSmall && !b.isSmall && a.bufId == b.bufId then
    match hGet h a.bufId with
    | some c => decide (2 ≤ c.refCount)
    | none => false
  else true

/-! ## Heap primitive lemmas -/

theorem hGet_nil (i : Nat) : hGet ([] : Heap V) i = none := by
  cases i <;> rfl

theorem hGet_append_lt (h l : Heap V) (i : Nat) (hi : i < h.length) :
    hGet (h ++ l) i = hGet h i := by
  induction h generalizing i with
  | nil => simp at hi
  | cons a t ih =>
      cases i with
      | zero => rfl
      | succ n => exact ih n (by simpa using hi)

theorem hGet_append_right (h l : Heap V) (j : Nat) :
    hGet (h ++ l) (h.length + j) = hGet l j := by
  induction h with
  | nil => simp [hGet]
  | cons a t ih => simpa [hGet, Nat.succ_add] using ih

theorem hGet_append_self (h : Heap V) (x : Option (Buffer V)) (l : Heap V) :
    hGet (h ++ x :: l) h.length = x := by
  simpa using hGet_append_right h (x :: l) 0

theorem hGet_lt_length {h : Heap V} {i : Nat} {b : Buffer V}
    (hg : hGet h i = some b) : i < h.length := by
  induction h generalizing i with
  | nil => simp [hGet_nil] at hg
  | cons a t ih =>
      cases i with
      | zero => simp
      | succ n => simpa using ih (by simpa [hGet] using hg)

theorem hSet_length (h : Heap V) (i : Nat) (x : Option (Buffer V)) :
    (hSet h i x).length = h.length := by
  induction h generalizing i with
  | nil => rfl
  | cons a t ih => cases i <;> simp [hSet, ih]

theorem hGet_hSet_self (h : Heap V) {i : Nat} (x : Option (Buffer V))
    (hi : i < h.length) : hGet (hSet h i x) i = x := by
  induction h generalizing i with
  | nil => simp at hi
  | cons a t ih =>
      cases i with
      | zero => rfl
      | succ n => exact ih (by simpa using hi)

theorem hGet_hSet_ne (h : Heap V) {i j : Nat} (x : Option (Buffer V))
    (hne : i ≠ j) : hGet (hSet h i x) j = hGet h j := by
  induction h generalizing i j with
  | nil => rfl
  | cons a t ih =>
      cases i with
      | zero =>
          cases j with
          | zero => exact absurd rfl hne
          | succ m => rfl
      | succ n =>
          cases j with
          | zero => rfl
          | succ m => exact ih (by omega)

theorem hSet_append_lt (h l : Heap V) {i : Nat} (x : Option (Buffer V))
    (hi : i < h.length) : hSet (h ++ l) i x = hSet h i x ++ l := by
  induction h generalizing i with
  | nil => simp at hi
  | cons a t ih =>
      cases i with
      | zero => rfl
      | succ n => simp [hSet, ih (by simpa using hi)]

theorem hSet_hSet_self (h : Heap V) (i : Nat) (x y : Option (Buffer V)) :
    hSet (hSet h i x) i y = hSet h i y := by
  induction h generalizing i with
  | nil => rfl
  | cons a t ih => cases i <;> simp [hSet, ih]

/-! ## release_ref / ref_count_++ lemmas -/

theorem releaseRef_of_get_none {h : Heap V} {i : Nat} (hg : hGet h i = none) :
    releaseRef h i = h := by
  simp [releaseRef, hg]

theorem releaseRef_free {h : Heap V} {i : Nat} {b : Buffer V}
    (hg : hGet h i = some b) (h1 : b.refCount ≤ 1) :
    releaseRef h i = hSet h i none := by
  simp [releaseRef, hg, h1]

theorem releaseRef_keep {h : Heap V} {i : Nat} {b : Buffer V}
    (hg : hGet h i = some b) (h2 : 2 ≤ b.refCount) :
    releaseRef h i = hSet h i (some { b with refCount := b.refCount - 1 }) := by
  have : ¬ b.refCount ≤ 1 := by omega
  simp [releaseRef, hg, this]

theorem releaseRef_length (h : Heap V) (i : Nat) :
    (releaseRef h i).length = h.length := by
  unfold releaseRef
  cases hg : hGet h i with
  | none => rfl
  | some b =>
      by_cases h1 : b.refCount ≤ 1 <;> simp [h1, hSet_length]

theorem hGet_releaseRef_ne (h : Heap V) {i j : Nat} (hne : i ≠ j) :
    hGet (releaseRef h i) j = hGet h j := by
  unfold releaseRef
  cases hg : hGet h i with
  | none => rfl
  | some b =>
      by_cases h1 : b.refCount ≤ 1 <;> simp [h1, hGet_hSet_ne _ _ hne]

theorem releaseRef_append_lt (h l : Heap V) {i : Nat} (hi : i < h.length) :
    releaseRef (h ++ l) i = releaseRef h i ++ l := by
  unfold releaseRef
  rw [hGet_append_lt h l i hi]
  cases hg : hGet h i with
  | none => rfl
  | some b =>
      by_cases h1 : b.refCount ≤ 1 <;> simp [h1, hSet_append_lt h l _ hi]

theorem bumpRef_of_get_some {h : Heap V} {i : Nat} {b : Buffer V}
    (hg : hGet h i = some b) :
    bumpRef h i = hSet h i (some { b with refCount := b.refCount + 1 }) := by
  simp [bumpRef, hg]

theorem bumpRef_of_get_none {h : Heap V} {i : Nat} (hg : hGet h i = none) :
    bumpRef h i = h := by
  simp [bumpRef, hg]

theorem bumpRef_length (h : Heap V) (i : Nat) :
    (bumpRef h i).length = h.length := by
  unfold bumpRef
  cases hg : hGet h i with
  | none => rfl
  | some b => simp [hSet_length]

theorem hGet_bumpRef_ne (h : Heap V) {i j : Nat} (hne : i ≠ j) :
    hGet (bumpRef h i) j = hGet h j := by
  unfold bumpRef
  cases hg : hGet h i with
  | none => rfl
  | some b => simp [hGet_hSet_ne _ _ hne]

theorem bumpRef_append_lt (h l : Heap V) {i : Nat} (hi : i < h.length) :
    bumpRef (h ++ l) i = bumpRef h i ++ l := by
  unfold bumpRef
  rw [hGet_append_lt h l i hi]
  cases hg : hGet h i with
  | none => rfl
  | some b => simp [hSet_append_lt h l _ hi]

theorem containerDestroy_small {h : Heap V} {v : Vec V} (hs : v.isSmall = true) :
    containerDestroy h v = h := by
  simp [containerDestroy, hs]

theorem containerDestroy_big {h : Heap V} {v : Vec V} (hs : v.isSmall = false) :
    containerDestroy h v = releaseRef h v.bufId := by
  simp [containerDestroy, hs]

theorem containerDestroy_length (h : Heap V) (v : Vec V) :
    (containerDestroy h v).length = h.length := by
  unfold containerDestroy
  by_cases hs : v.isSmall <;> simp [hs, releaseRef_length]

/-! ## Well-formedness and pair coherence: extraction lemmas -/

theorem wf_small {N : Nat} {h : Heap V} {v : Vec V} (hw : wfB N h v = true)
    (hs : v.isSmall = true) : v.small.length = v.size ∧ v.size ≤ N := by
  simp [wfB, hs] at hw
  exact hw

theorem wf_big {N : Nat} {h : Heap V} {v : Vec V} (hw : wfB N h v = true)
    (hs : v.isSmall = false) :
    ∃ b, hGet h v.bufId = some b ∧ b.data.length = v.size ∧ v.size ≤ b.cap ∧
      1 ≤ b.cap ∧ 1 ≤ b.refCount := by
  unfold wfB at hw
  rw [hs] at hw
  simp only [Bool.false_eq_true, if_false] at hw
  cases hg : hGet h v.bufId with
  | none => rw [hg] at hw; simp at hw
  | some b =>
      rw [hg] at hw
      simp only [Bool.and_eq_true, beq_iff_eq, decide_eq_true_eq] at hw
      obtain ⟨⟨⟨h1, h2⟩, h3⟩, h4⟩ := hw
      exact ⟨b, rfl, h1, h2, h3, h4⟩

theorem wf_small_intro {N : Nat} {h : Heap V} {v : Vec V} (hs : v.isSmall = true)
    (h1 : v.small.length = v.size) (h2 : v.size ≤ N) : wfB N h v = true := by
  simp [wfB, hs, h1, h2]

theorem wf_big_intro {N : Nat} {h : Heap V} {v : Vec V} {b : Buffer V}
    (hs : v.isSmall = false) (hg : hGet h v.bufId = some b)
    (h1 : b.data.length = v.size) (h2 : v.size ≤ b.cap) (h3 : 1 ≤ b.cap)
    (h4 : 1 ≤ b.refCount) : wfB N h v = true := by
  simp [wfB, hs, hg, h1, h2, h3, h4]

theorem pair_shared {h : Heap V} {a b : Vec V} (hp : pairOK h a b = true)
    (ha : a.isSmall = false) (hb : b.isSmall = false) (hid : a.bufId = b.bufId) :
    ∃ c, hGet h a.bufId = some c ∧ 2 ≤ c.refCount := by
  simp only [pairOK, ha, hb, hid] at hp
  simp at hp
  cases hg : hGet h b.bufId with
  | none => rw [hg] at hp; simp at hp
  | some c => rw [hg] at hp; simp at hp; exact ⟨c, by rw [hid, hg], hp⟩

theorem pairOK_of_small_left {h : Heap V} {a b : Vec V} (ha : a.isSmall = true) :
    pairOK h a b = true := by
  simp [pairOK, ha]

theorem pairOK_of_small_right {h : Heap V} {a b : Vec V} (hb : b.isSmall = true) :
    pairOK h a b = true := by
  simp [pairOK, hb]

theorem pairOK_of_ne {h : Heap V} {a b : Vec V} (hne : a.bufId ≠ b.bufId) :
    pairOK h a b = true := by
  simp [pairOK, hne]

theorem pairOK_of_shared {h : Heap V} {a b : Vec V} {c : Buffer V}
    (hg : hGet h a.bufId = some c) (h2 : 2 ≤ c.refCount) : pairOK h a b = true := by
  unfold pairOK
  split
  · rw [hg]
    simpa using h2
  · rfl

/-! ## Element and capacity lemmas -/

theorem elems_small {h : Heap V} {v : Vec V} (hs : v.isSmall = true) :
    elemsOf h v = v.small.take v.size := by
  simp [elemsOf, hs]

theorem elems_big {h : Heap V} {v : Vec V} {b : Buffer V} (hs : v.isSmall = false)
    (hg : hGet h v.bufId = some b) : elemsOf h v = b.data.take v.size := by
  simp [elemsOf, hs, hg]

theorem capOf_small {N : Nat} {h : Heap V} {v : Vec V} (hs : v.isSmall = true) :
    capOf N h v = N := by
  simp [capOf, hs]

theorem capOf_big {N : Nat} {h : Heap V} {v : Vec V} {b : Buffer V}
    (hs : v.isSmall = false) (hg : hGet h v.bufId = some b) :
    capOf N h v = b.cap := by
  simp [capOf, hs, hg]

theorem elems_length {N : Nat} {h : Heap V} {v : Vec V} (hw : wfB N h v = true) :
    (elemsOf h v).length = v.size := by
  by_cases hs : v.isSmall
  · obtain ⟨h1, _⟩ := wf_small hw hs
    simp [elems_small hs, h1]
  · obtain ⟨b, hg, h1, _⟩ := wf_big hw (by simpa using hs)
    simp [elems_big (by simpa using hs) hg, h1]

theorem elems_big_full {N : Nat} {h : Heap V} {v : Vec V} {b : Buffer V}
    (hw : wfB N h v = true) (hs : v.isSmall = false)
    (hg : hGet h v.bufId = some b) : elemsOf h v = b.data := by
  obtain ⟨b', hg', h1, _⟩ := wf_big hw hs
  rw [hg] at hg'
  cases hg'
  rw [elems_big hs hg, h1.symm, List.take_length]

theorem wf_size_le_cap {N : Nat} {h : Heap V} {v : Vec V} (hw : wfB N h v = true) :
    v.size ≤ capOf N h v := by
  by_cases hs : v.isSmall
  · obtain ⟨_, h2⟩ := wf_small hw hs
    simpa [capOf_small hs] using h2
  · obtain ⟨b, hg, _, h2, _⟩ := wf_big hw (by simpa using hs)
    simpa [capOf_big (by simpa using hs) hg] using h2

theorem sharedBuf_small {h : Heap V} {v : Vec V} (hs : v.isSmall = true) :
    sharedBuf h v = false := by
  simp [sharedBuf, hs]

theorem sharedBuf_iff {h : Heap V} {v : Vec V} {b : Buffer V}
    (hs : v.isSmall = false) (hg : hGet h v.bufId = some b) :
    sharedBuf h v = decide (1 < b.refCount) := by
  simp [sharedBuf, hs, hg]

/-! ## Frame predicate: a buffer keeps its capacity and contents -/

/-- `keeps h h' i` says that if slot `i` held an allocated buffer in `h`, the
same slot still holds a buffer with the same capacity and contents in `h'`
(only the reference count may have moved). -/
def keeps (h h' : Heap V) (i : Nat) : Prop :=
  ∀ b, hGet h i = some b → ∃ b', hGet h' i = some b' ∧ b'.cap = b.cap ∧ b'.data = b.data

theorem keeps_refl (h : Heap V) (i : Nat) : keeps h h i :=
  fun b hb => ⟨b, hb, rfl, rfl⟩

theorem keeps_trans {h1 h2 h3 : Heap V} {i : Nat} (k1 : keeps h1 h2 i)
    (k2 : keeps h2 h3 i) : keeps h1 h3 i := by
  intro b hb
  obtain ⟨b', hb', hc', hd'⟩ := k1 b hb
  obtain ⟨b'', hb'', hc'', hd''⟩ := k2 b' hb'
  exact ⟨b'', hb'', hc''.trans hc', hd''.trans hd'⟩

theorem keeps_append (h l : Heap V) (i : Nat) : keeps h (h ++ l) i := by
  intro b hb
  exact ⟨b, by rw [hGet_append_lt h l i (hGet_lt_length hb)]; exact hb, rfl, rfl⟩

theorem keeps_hSet_ne {h : Heap V} {i j : Nat} (x : Option (Buffer V))
    (hne : j ≠ i) : keeps h (hSet h j x) i := by
  intro b hb
  exact ⟨b, by rw [hGet_hSet_ne h x hne]; exact hb, rfl, rfl⟩

theorem keeps_bumpRef (h : Heap V) (j i : Nat) : keeps h (bumpRef h j) i := by
  intro b hb
  by_cases hij : j = i
  · subst hij
    rw [bumpRef_of_get_some hb]
    exact ⟨_, hGet_hSet_self h _ (hGet_lt_length hb), rfl, rfl⟩
  · exact ⟨b, by rw [hGet_bumpRef_ne h hij]; exact hb, rfl, rfl⟩

theorem keeps_releaseRef_ne (h : Heap V) {j i : Nat} (hne : j ≠ i) :
    keeps h (releaseRef h j) i := by
  intro b hb
  exact ⟨b, by rw [hGet_releaseRef_ne h hne]; exact hb, rfl, rfl⟩

theorem keeps_releaseRef_shared {h : Heap V} {j : Nat} {c : Buffer V}
    (hg : hGet h j = some c) (h2 : 2 ≤ c.refCount) (i : Nat) :
    keeps h (releaseRef h j) i := by
  intro b hb
  by_cases hij : j = i
  · subst hij
    rw [hb] at hg
    cases hg
    rw [releaseRef_keep hb h2]
    exact ⟨_, hGet_hSet_self h _ (hGet_lt_length hb), rfl, rfl⟩
  · exact ⟨b, by rw [hGet_releaseRef_ne h hij]; exact hb, rfl, rfl⟩

theorem hSet_append_self (h : Heap V) (x y : Option (Buffer V)) (l : Heap V) :
    hSet (h ++ x :: l) h.length y = h ++ y :: l := by
  induction h with
  | nil => rfl
  | cons a t ih => simp [hSet, ih]

theorem hSet_get_self {h : Heap V} {i : Nat} {b : Option (Buffer V)}
    (hg : hGet h i = b) : hSet h i b = h := by
  induction h generalizing i with
  | nil => rfl
  | cons a t ih =>
      cases i with
      | zero => simp [hGet] at hg; simp [hSet, hg]
      | succ n => simp [hGet] at hg; simp [hSet, ih hg]

theorem keeps_hSet_weaken {h : Heap V} {i : Nat} {b b' : Buffer V}
    (hg : hGet h i = some b) (hcap : b'.cap = b.cap) (hdata : b'.data = b.data) :
    keeps h (hSet h i (some b')) i := by
  intro c hc
  rw [hg] at hc
  obtain rfl : b = c := Option.some.inj hc
  exact ⟨b', hGet_hSet_self h _ (hGet_lt_length hg), hcap, hdata⟩

theorem keeps_releaseRef_cond (h : Heap V) (j i : Nat)
    (hcond : j = i → ∀ b, hGet h j = some b → 2 ≤ b.refCount) :
    keeps h (releaseRef h j) i := by
  by_cases hij : j = i
  · subst hij
    intro b hb
    exact keeps_releaseRef_shared hb (hcond rfl b hb) j b hb
  · exact keeps_releaseRef_ne h hij

/-- Observable state only depends on the heap through the instance's own
buffer slot. -/
theorem obs_keeps {N : Nat} {h h' : Heap V} {v : Vec V} (hw : wfB N h v = true)
    (hk : v.isSmall = false → keeps h h' v.bufId) : obsOf N h' v = obsOf N h v := by
  by_cases hs : v.isSmall
  · simp [obsOf, capOf_small hs, elems_small hs]
  · replace hs : v.isSmall = false := by simpa using hs
    obtain ⟨b, hg, hlen, _⟩ := wf_big hw hs
    obtain ⟨b', hg', hc', hd'⟩ := hk hs b hg
    simp [obsOf, capOf_big hs hg, capOf_big hs hg', elems_big hs hg,
      elems_big hs hg', hc', hd']

/-- Well-formedness only depends on the heap through the instance's own buffer
slot, given that the reference count stays positive. -/
theorem wf_keeps {N : Nat} {h h' : Heap V} {v : Vec V} (hw : wfB N h v = true)
    (hk : v.isSmall = false → ∀ b, hGet h v.bufId = some b →
      ∃ b', hGet h' v.bufId = some b' ∧ b'.cap = b.cap ∧ b'.data = b.data ∧
        1 ≤ b'.refCount) : wfB N h' v = true := by
  by_cases hs : v.isSmall
  · obtain ⟨h1, h2⟩ := wf_small hw hs
    exact wf_small_intro hs h1 h2
  · replace hs : v.isSmall = false := by simpa using hs
    obtain ⟨b, hg, h1, h2, h3, h4⟩ := wf_big hw hs
    obtain ⟨b', hg', hc', hd', hr'⟩ := hk hs b hg
    exact wf_big_intro hs hg' (hd' ▸ h1) (hc' ▸ h2) (hc' ▸ h3) hr'

/-! ## Branch characterization of the operations -/

theorem containerDestroy_append_lt (h l : Heap V) (v : Vec V)
    (hlt : v.isSmall = false → v.bufId < h.length) :
    containerDestroy (h ++ l) v = containerDestroy h v ++ l := by
  by_cases hs : v.isSmall
  · simp [containerDestroy_small hs]
  · replace hs : v.isSmall = false := by simpa using hs
    rw [containerDestroy_big hs, containerDestroy_big hs,
      releaseRef_append_lt h l (hlt hs)]

theorem unshare_vec (h : Heap V) (v : Vec V) (c : Nat) :
    (unshare h v c).2 = { v with isSmall := false, bufId := h.length } := rfl

theorem unshare_heap_small {h : Heap V} {v : Vec V} (hs : v.isSmall = true)
    (c : Nat) : (unshare h v c).1 = h ++ [some ⟨c, 1, elemsOf h v⟩] := by
  simp [unshare, containerDestroy_small hs]

theorem unshare_heap_big {h : Heap V} {v : Vec V} (hs : v.isSmall = false)
    (hlt : v.bufId < h.length) (c : Nat) :
    (unshare h v c).1 = releaseRef h v.bufId ++ [some ⟨c, 1, elemsOf h v⟩] := by
  simp [unshare, containerDestroy_big hs, releaseRef_append_lt h _ hlt]

theorem unshare_get_new {N : Nat} {h : Heap V} {v : Vec V} (hw : wfB N h v = true)
    (c : Nat) : hGet (unshare h v c).1 h.length = some ⟨c, 1, elemsOf h v⟩ := by
  by_cases hs : v.isSmall
  · rw [unshare_heap_small hs, hGet_append_self]
  · replace hs : v.isSmall = false := by simpa using hs
    obtain ⟨b, hb, _⟩ := wf_big hw hs
    rw [unshare_heap_big hs (hGet_lt_length hb)]
    have : (releaseRef h v.bufId).length = h.length := releaseRef_length h v.bufId
    rw [← this, hGet_append_self]

theorem unshare_obs {N : Nat} {h : Heap V} {v : Vec V} (hw : wfB N h v = true)
    (c : Nat) :
    obsOf N (unshare h v c).1 (unshare h v c).2 = ⟨v.size, c, elemsOf h v⟩ := by
  have hg := unshare_get_new hw c
  have hvec := unshare_vec h v c
  have hsz : ((unshare h v c).2).size = v.size := by rw [hvec]
  have hsm : ((unshare h v c).2).isSmall = false := by rw [hvec]
  have hid : ((unshare h v c).2).bufId = h.length := by rw [hvec]
  have hcap : capOf N (unshare h v c).1 (unshare h v c).2 = c := by
    rw [capOf_big hsm (hid ▸ hg)]
  have hel : elemsOf (unshare h v c).1 (unshare h v c).2 = elemsOf h v := by
    rw [elems_big hsm (hid ▸ hg)]
    simp [hsz, ← elems_length hw]
  simp [obsOf, hsz, hcap, hel]

theorem unshare_wf {N : Nat} {h : Heap V} {v : Vec V} (hw : wfB N h v = true)
    {c : Nat} (hc1 : v.size ≤ c) (hc2 : 1 ≤ c) :
    wfB N (unshare h v c).1 (unshare h v c).2 = true := by
  have hg := unshare_get_new hw c
  have hvec := unshare_vec h v c
  have hsm : ((unshare h v c).2).isSmall = false := by rw [hvec]
  have hid : ((unshare h v c).2).bufId = h.length := by rw [hvec]
  have hsz : ((unshare h v c).2).size = v.size := by rw [hvec]
  refine wf_big_intro hsm (hid ▸ hg) ?_ ?_ ?_ ?_
  · simpa [hsz] using elems_length hw
  · simpa [hsz] using hc1
  · simpa using hc2
  · simp

theorem unshare_keeps {N : Nat} {h : Heap V} {v : Vec V} (hw : wfB N h v = true)
    (c : Nat) (i : Nat)
    (hcond : v.isSmall = false → v.bufId = i → ∀ b, hGet h v.bufId = some b →
      2 ≤ b.refCount) : keeps h (unshare h v c).1 i := by
  by_cases hs : v.isSmall
  · rw [unshare_heap_small hs]
    exact keeps_append h _ i
  · replace hs : v.isSmall = false := by simpa using hs
    obtain ⟨b, hb, _⟩ := wf_big hw hs
    rw [unshare_heap_big hs (hGet_lt_length hb)]
    exact keeps_trans (keeps_releaseRef_cond h v.bufId i (hcond hs)) (keeps_append _ _ i)

theorem unshare_length {N : Nat} {h : Heap V} {v : Vec V} (hw : wfB N h v = true)
    (c : Nat) : (unshare h v c).1.length = h.length + 1 := by
  by_cases hs : v.isSmall
  · simp [unshare_heap_small hs]
  · replace hs : v.isSmall = false := by simpa using hs
    obtain ⟨b, hb, _⟩ := wf_big hw hs
    simp [unshare_heap_big hs (hGet_lt_length hb), releaseRef_length]

theorem dataMut_not_shared {N : Nat} {h : Heap V} {v : Vec V}
    (hsh : sharedBuf h v = false) : dataMut N h v = (h, v) := by
  simp [dataMut, hsh]

theorem dataMut_shared {N : Nat} {h : Heap V} {v : Vec V}
    (hsh : sharedBuf h v = true) : dataMut N h v = unshare h v (capOf N h v) := by
  simp [dataMut, hsh]

theorem assign_adopt {h : Heap V} {t s : Vec V} (hs : s.isSmall = false) :
    assign h t s =
      (bumpRef (containerDestroy h t) s.bufId,
       { t with size := s.size, isSmall := false, bufId := s.bufId }) := by
  simp [assign, hs]

theorem assign_big_small {h : Heap V} {t s : Vec V} (hs : s.isSmall = true)
    (ht : t.isSmall = false) :
    assign h t s =
      (releaseRef h t.bufId,
       { t with
         size := s.size
         isSmall := true
         small := (elemsOf h s).take s.size }) := by
  simp [assign, hs, ht, copyToSmall]

theorem assign_small_small {h : Heap V} {t s : Vec V} (hs : s.isSmall = true)
    (ht : t.isSmall = true) :
    assign h t s =
      (h, { t with
            size := s.size
            small := (elemsOf h s).take (min t.size s.size) ++
              (if t.size < s.size then
                 t.small.take t.size ++ (elemsOf h s).drop t.size
               else (t.small.take t.size).take s.size).drop (min t.size s.size) }) := by
  simp [assign, hs, ht]

/-- Under well-formedness the small/small reconciliation produces exactly the
source's element sequence. -/
theorem assign_small_small_wf {N : Nat} {h : Heap V} {t s : Vec V}
    (hs : s.isSmall = true) (ht : t.isSmall = true) (hwt : wfB N h t = true)
    (hws : wfB N h s = true) :
    assign h t s = (h, { t with size := s.size, small := elemsOf h s }) := by
  have hlt : t.small.length = t.size := (wf_small hwt ht).1
  have hls : (elemsOf h s).length = s.size := elems_length hws
  have key : (elemsOf h s).take (min t.size s.size) ++
      (if t.size < s.size then
         t.small.take t.size ++ (elemsOf h s).drop t.size
       else (t.small.take t.size).take s.size).drop (min t.size s.size) =
      elemsOf h s := by
    by_cases hcmp : t.size < s.size
    · rw [if_pos hcmp]
      have hmin : min t.size s.size = t.size := by omega
      rw [hmin]
      have h1 : (t.small.take t.size).length = t.size := by simp [hlt]
      have h2 := List.drop_left (t.small.take t.size) ((elemsOf h s).drop t.size)
      rw [h1] at h2
      rw [h2]
      exact List.take_append_drop _ _
    · rw [if_neg hcmp]
      have hmin : min t.size s.size = s.size := by omega
      rw [hmin]
      have h1 : ((t.small.take t.size).take s.size).length = s.size := by
        simp [hlt]; omega
      rw [List.drop_eq_nil_of_le h1.le, List.append_nil, ← hls, List.take_length]
  rw [assign_small_small hs ht, key]

/-- In the adopting branch the source's buffer slot stays alive, with
unchanged capacity and contents: the reference count rises by one, except
when the target already referenced the very same buffer (release followed by
re-retain). -/
theorem assign_adopt_get_noalias {h : Heap V} {t s : Vec V} {bs : Buffer V}
    (hs : s.isSmall = false) (hbs : hGet h s.bufId = some bs)
    (hna : ¬(t.isSmall = false ∧ t.bufId = s.bufId)) :
    hGet (assign h t s).1 s.bufId = some { bs with refCount := bs.refCount + 1 } := by
  rw [assign_adopt hs]
  have hcd : hGet (containerDestroy h t) s.bufId = some bs := by
    by_cases hts : t.isSmall
    · rw [containerDestroy_small hts]; exact hbs
    · replace hts : t.isSmall = false := by simpa using hts
      have hne : t.bufId ≠ s.bufId := fun he => hna ⟨hts, he⟩
      rw [containerDestroy_big hts, hGet_releaseRef_ne h hne]
      exact hbs
  rw [bumpRef_of_get_some hcd]
  exact hGet_hSet_self _ _
    (by rw [containerDestroy_length h t]; exact hGet_lt_length hbs)

theorem assign_adopt_get_alias {h : Heap V} {t s : Vec V} {bs : Buffer V}
    (hs : s.isSmall = false) (ht : t.isSmall = false) (hid : t.bufId = s.bufId)
    (hbs : hGet h s.bufId = some bs) (h2 : 2 ≤ bs.refCount) :
    hGet (assign h t s).1 s.bufId = some bs := by
  rw [assign_adopt hs, containerDestroy_big ht, hid]
  have hlt : s.bufId < h.length := hGet_lt_length hbs
  rw [releaseRef_keep hbs h2]
  have hg2 : hGet (hSet h s.bufId (some { bs with refCount := bs.refCount - 1 }))
      s.bufId = some { bs with refCount := bs.refCount - 1 } :=
    hGet_hSet_self h _ hlt
  rw [bumpRef_of_get_some hg2, hSet_hSet_self]
  have : bs.refCount - 1 + 1 = bs.refCount := by omega
  rw [hGet_hSet_self h _ hlt]
  simp [this]

/-- Combined: after adopting, the source slot is alive with the same capacity
and contents and a reference count of at least 2. -/
theorem assign_adopt_get {h : Heap V} {t s : Vec V} {bs : Buffer V}
    (hs : s.isSmall = false) (hbs : hGet h s.bufId = some bs)
    (hr1 : 1 ≤ bs.refCount) (hp : pairOK h t s = true) :
    ∃ b', hGet (assign h t s).1 s.bufId = some b' ∧ b'.cap = bs.cap ∧
      b'.data = bs.data ∧ 2 ≤ b'.refCount := by
  by_cases hna : t.isSmall = false ∧ t.bufId = s.bufId
  · obtain ⟨c, hc, h2⟩ := pair_shared hp hna.1 hs hna.2
    rw [hna.2] at hc
    rw [hbs] at hc
    cases hc
    exact ⟨bs, assign_adopt_get_alias hs hna.1 hna.2 hbs h2, rfl, rfl, h2⟩
  · refine ⟨{ bs with refCount := bs.refCount + 1 },
      assign_adopt_get_noalias hs hbs hna, rfl, rfl, ?_⟩
    simp only
    omega

theorem assign_keeps {h : Heap V} {t s : Vec V} (i : Nat)
    (hcond : t.isSmall = false → t.bufId = i → ∀ b, hGet h i = some b →
      2 ≤ b.refCount) : keeps h (assign h t s).1 i := by
  by_cases hs : s.isSmall
  · by_cases ht : t.isSmall
    · rw [assign_small_small (by simpa using hs) ht]
      exact keeps_refl h i
    · replace ht : t.isSmall = false := by simpa using ht
      rw [assign_big_small (by simpa using hs) ht]
      exact keeps_releaseRef_cond h t.bufId i (fun he => he ▸ hcond ht he)
  · replace hs : s.isSmall = false := by simpa using hs
    rw [assign_adopt hs]
    refine keeps_trans ?_ (keeps_bumpRef _ s.bufId i)
    by_cases ht : t.isSmall
    · rw [containerDestroy_small ht]; exact keeps_refl h i
    · replace ht : t.isSmall = false := by simpa using ht
      rw [containerDestroy_big ht]
      exact keeps_releaseRef_cond h t.bufId i (fun he => he ▸ hcond ht he)

/-- The observable state of a small instance. -/
theorem obs_small {N : Nat} {h : Heap V} {v : Vec V} (hs : v.isSmall = true) :
    obsOf N h v = ⟨v.size, N, v.small.take v.size⟩ := by
  simp [obsOf, capOf_small hs, elems_small hs]

/-- The observable state of a big instance. -/
theorem obs_big {N : Nat} {h : Heap V} {v : Vec V} {b : Buffer V}
    (hs : v.isSmall = false) (hb : hGet h v.bufId = some b) :
    obsOf N h v = ⟨v.size, b.cap, b.data.take v.size⟩ := by
  simp [obsOf, capOf_big hs hb, elems_big hs hb]

/-- The observable state of the target after `operator=` equals the source's
observable state before it. -/
theorem assign_obs {N : Nat} {h : Heap V} {t s : Vec V} (hwt : wfB N h t = true)
    (hws : wfB N h s = true) (hp : pairOK h t s = true) :
    obsOf N (assign h t s).1 (assign h t s).2 = obsOf N h s := by
  by_cases hs : s.isSmall
  · replace hs : s.isSmall = true := by simpa using hs
    have hls : (elemsOf h s).length = s.size := elems_length hws
    by_cases ht : t.isSmall
    · replace ht : t.isSmall = true := by simpa using ht
      rw [assign_small_small_wf hs ht hwt hws]
      have h5 : ({ t with size := s.size, small := elemsOf h s } : Vec V).isSmall
          = true := ht
      have h6 : (elemsOf h s).take s.size = s.small.take s.size := by
        rw [elems_small hs]; simp [List.take_take]
      rw [obs_small h5, obs_small hs]
      simp only
      rw [h6]
    · replace ht : t.isSmall = false := by simpa using ht
      rw [assign_big_small hs ht]
      have h5 : ({ t with
          size := s.size
          isSmall := true
          small := (elemsOf h s).take s.size } : Vec V).isSmall = true := rfl
      have h6 : ((elemsOf h s).take s.size).take s.size = s.small.take s.size := by
        rw [elems_small hs]; simp [List.take_take]
      rw [obs_small h5, obs_small hs]
      simp only
      rw [h6]
  · replace hs : s.isSmall = false := by simpa using hs
    obtain ⟨bs, hbs, hlen, hle, hcap, hrc⟩ := wf_big hws hs
    obtain ⟨b', hb', hc', hd', _⟩ := assign_adopt_get hs hbs hrc hp
    have hvec : (assign h t s).2 =
        { t with size := s.size, isSmall := false, bufId := s.bufId } := by
      rw [assign_adopt hs]
    have hsm : ((assign h t s).2).isSmall = false := by rw [hvec]
    have hsz : ((assign h t s).2).size = s.size := by rw [hvec]
    have hid : ((assign h t s).2).bufId = s.bufId := by rw [hvec]
    rw [obs_big hsm (hid ▸ hb'), obs_big hs hbs]
    simp only [Obs.mk.injEq]
    exact ⟨hsz, hc', by rw [hd', hsz]⟩

/-- `operator=` leaves the target well-formed. -/
theorem assign_wf {N : Nat} {h : Heap V} {t s : Vec V} (hwt : wfB N h t = true)
    (hws : wfB N h s = true) (hp : pairOK h t s = true) :
    wfB N (assign h t s).1 (assign h t s).2 = true := by
  by_cases hs : s.isSmall
  · replace hs : s.isSmall = true := by simpa using hs
    have hls : (elemsOf h s).length = s.size := elems_length hws
    have hsN : s.size ≤ N := (wf_small hws hs).2
    by_cases ht : t.isSmall
    · replace ht : t.isSmall = true := by simpa using ht
      rw [assign_small_small_wf hs ht hwt hws]
      exact wf_small_intro ht (by simpa using hls) (by simpa using hsN)
    · replace ht : t.isSmall = false := by simpa using ht
      rw [assign_big_small hs ht]
      refine wf_small_intro rfl ?_ (by simpa using hsN)
      simp only [List.length_take]
      omega
  · replace hs : s.isSmall = false := by simpa using hs
    obtain ⟨bs, hbs, hlen, hle, hcap, hrc⟩ := wf_big hws hs
    obtain ⟨b', hb', hc', hd', hr'⟩ := assign_adopt_get hs hbs hrc hp
    have hvec : (assign h t s).2 =
        { t with size := s.size, isSmall := false, bufId := s.bufId } := by
      rw [assign_adopt hs]
    have hsm : ((assign h t s).2).isSmall = false := by rw [hvec]
    have hsz : ((assign h t s).2).size = s.size := by rw [hvec]
    have hid : ((assign h t s).2).bufId = s.bufId := by rw [hvec]
    refine wf_big_intro hsm (hid ▸ hb') ?_ ?_ ?_ ?_
    · rw [hd', hsz]; exact hlen
    · rw [hc', hsz]; exact hle
    · rw [hc']; exact hcap
    · omega

/-- The source stays well-formed across `operator=`. -/
theorem assign_wf_src {N : Nat} {h : Heap V} {t s : Vec V}
    (hws : wfB N h s = true) (hp : pairOK h t s = true) :
    wfB N (assign h t s).1 s = true := by
  by_cases hs : s.isSmall
  · replace hs : s.isSmall = true := by simpa using hs
    obtain ⟨h1, h2⟩ := wf_small hws hs
    exact wf_small_intro hs h1 h2
  · replace hs : s.isSmall = false := by simpa using hs
    obtain ⟨bs, hbs, hlen, hle, hcap, hrc⟩ := wf_big hws hs
    obtain ⟨b', hb', hc', hd', hr'⟩ := assign_adopt_get hs hbs hrc hp
    exact wf_big_intro hs hb' (hd' ▸ hlen) (hc' ▸ hle) (hc' ▸ hcap) (by omega)

/-! ## clear / reserve / shrink_to_fit branch lemmas -/

theorem clear_shared {h : Heap V} {v : Vec V} (hsh : sharedBuf h v = true) :
    clear h v =
      (releaseRef h v.bufId,
       { v with size := 0, isSmall := true, small := [] }) := by
  simp [clear, hsh]

theorem clear_small {h : Heap V} {v : Vec V} (hs : v.isSmall = true) :
    clear h v = (h, { v with size := 0, small := [] }) := by
  simp [clear, sharedBuf_small hs, hs]

theorem clear_private_big {h : Heap V} {v : Vec V} {b : Buffer V}
    (hsh : sharedBuf h v = false) (hs : v.isSmall = false)
    (hb : hGet h v.bufId = some b) :
    clear h v = (hSet h v.bufId (some { b with data := [] }),
      { v with size := 0 }) := by
  simp [clear, hsh, hs, hb]

theorem reserve_noop {N : Nat} {h : Heap V} {v : Vec V} {c : Nat}
    (hc : ¬ v.size < c) : reserve N h v c = (h, v) := by
  simp [reserve, hc]

theorem reserve_demote {N : Nat} {h : Heap V} {v : Vec V} {c : Nat}
    (hc : v.size < c) (hsh : sharedBuf h v = true) (hcN : c ≤ N) {b : Buffer V}
    (hb : hGet h v.bufId = some b) :
    reserve N h v c = copyToSmall h v b.data v.size := by
  simp [reserve, hc, hsh, hcN, hb]

theorem reserve_unshare {N : Nat} {h : Heap V} {v : Vec V} {c : Nat}
    (hc : v.size < c) (hcond : sharedBuf h v = true ∨ capOf N h v < c)
    (hnot : ¬(sharedBuf h v = true ∧ c ≤ N)) :
    reserve N h v c = unshare h v c := by
  by_cases hsh : sharedBuf h v = true
  · have hcN : ¬ c ≤ N := fun hle => hnot ⟨hsh, hle⟩
    simp [reserve, hc, hsh, hcN]
  · replace hsh : sharedBuf h v = false := by simpa using hsh
    have hcap : capOf N h v < c := by
      rcases hcond with h1 | h1
      · rw [hsh] at h1; simp at h1
      · exact h1
    simp [reserve, hc, hsh, hcap]

theorem reserve_keep {N : Nat} {h : Heap V} {v : Vec V} {c : Nat}
    (hc : v.size < c) (hsh : sharedBuf h v = false)
    (hcap : ¬ capOf N h v < c) : reserve N h v c = (h, v) := by
  simp [reserve, hc, hsh, hcap]

theorem shrink_noop_small {N : Nat} {h : Heap V} {v : Vec V}
    (hs : v.isSmall = true) : shrinkToFit N h v = (h, v) := by
  simp [shrinkToFit, hs]

theorem shrink_noop_full {N : Nat} {h : Heap V} {v : Vec V}
    (hcap : ¬ v.size < capOf N h v) : shrinkToFit N h v = (h, v) := by
  simp [shrinkToFit, hcap]

theorem shrink_demote {N : Nat} {h : Heap V} {v : Vec V} (hs : v.isSmall = false)
    (hcap : v.size < capOf N h v) (hsN : v.size ≤ N) {b : Buffer V}
    (hb : hGet h v.bufId = some b) :
    shrinkToFit N h v = copyToSmall h v b.data v.size := by
  simp [shrinkToFit, hs, hcap, hsN, hb]

theorem shrink_unshare {N : Nat} {h : Heap V} {v : Vec V} (hs : v.isSmall = false)
    (hcap : v.size < capOf N h v) (hsN : ¬ v.size ≤ N) :
    shrinkToFit N h v = unshare h v v.size := by
  simp [shrinkToFit, hs, hcap, hsN]

/-- Facts about `copy_to_small` on a big instance: the result is small, keeps
the size, carries over the first `size` buffer elements, and releases the old
reference. -/
theorem copyToSmall_obs {N : Nat} {h : Heap V} {v : Vec V} {b : Buffer V}
    (hw : wfB N h v = true) (hs : v.isSmall = false)
    (hb : hGet h v.bufId = some b) :
    obsOf N (copyToSmall h v b.data v.size).1 (copyToSmall h v b.data v.size).2 =
      ⟨v.size, N, elemsOf h v⟩ := by
  have h5 : ((copyToSmall h v b.data v.size).2).isSmall = true := rfl
  have h6 : (b.data.take v.size).take v.size = elemsOf h v := by
    simp only [List.take_take, min_self]
    rw [elems_big hs hb]
  rw [obs_small h5]
  simp only [copyToSmall]
  rw [h6]

theorem copyToSmall_wf {N : Nat} {h : Heap V} {v : Vec V} {b : Buffer V}
    (hw : wfB N h v = true) (hs : v.isSmall = false)
    (hb : hGet h v.bufId = some b) (hsN : v.size ≤ N) :
    wfB N (copyToSmall h v b.data v.size).1 (copyToSmall h v b.data v.size).2 = true := by
  obtain ⟨b', hb', hlen, _⟩ := wf_big hw hs
  rw [hb] at hb'
  cases hb'
  refine wf_small_intro rfl ?_ (by simpa using hsN)
  simp only [copyToSmall, List.length_take]
  omega

theorem copyToSmall_keeps {h : Heap V} {v : Vec V} (src : List V) (n i : Nat)
    (hcond : v.bufId = i → ∀ b, hGet h i = some b → 2 ≤ b.refCount) :
    keeps h (copyToSmall h v src n).1 i :=
  keeps_releaseRef_cond h v.bufId i (fun he => he ▸ hcond he)

/-! ## Lengths of the in-place swap loops -/

theorem listSwap_length (l : List V) (i j : Nat) :
    (listSwap l i j).length = l.length := by
  unfold listSwap
  cases l[i]? <;> cases l[j]? <;> simp

theorem bubbleGo_length (f : Nat) (l : List V) (idx : Nat) :
    (bubbleGo f l idx).length = l.length := by
  induction f generalizing l idx with
  | zero => rfl
  | succ n ih => simp [bubbleGo, ih, listSwap_length]

theorem bubbleDown_length (l : List V) (idx diff : Nat) :
    (bubbleDown l idx diff).length = l.length :=
  bubbleGo_length _ l idx

theorem shiftGo_length (f : Nat) (l : List V) (left right : Nat) :
    (shiftGo f l left right).length = l.length := by
  induction f generalizing l left right with
  | zero => rfl
  | succ n ih => simp [shiftGo, ih, listSwap_length]

theorem shiftLoop_length (l : List V) (left right n : Nat) :
    (shiftLoop l left right n).length = l.length :=
  shiftGo_length _ l left right

/-! ## `insert` characterization -/

/-- The growth/unshare branch of `insert`, fully unfolded.  The heap effect is:
release the old storage, burn one slot on the intermediate adopted buffer
(freed when `tmp` dies), and leave the final private buffer — produced by the
extra `unshare` triggered by `return begin() + diff` — in a fresh slot. -/
theorem insert_growth {N : Nat} {h : Heap V} {v : Vec V} {pos : Nat} {x : V}
    (hw : wfB N h v = true) (hpos : pos ≤ v.size)
    (hg : (v.size == capOf N h v || sharedBuf h v) = true) :
    insert N h v pos x =
      (containerDestroy h v ++
         [none, some ⟨if v.size != capOf N h v then capOf N h v
                      else capOf N h v * 2, 1,
           (elemsOf h v).take pos ++ x :: (elemsOf h v).drop pos⟩],
       { v with size := v.size + 1, isSmall := false, bufId := h.length + 1 },
       pos) := by
  have hlt : v.isSmall = false → v.bufId < h.length := by
    intro hs
    obtain ⟨b, hb, _⟩ := wf_big hw hs
    exact hGet_lt_length hb
  have hndlen : ((elemsOf h v).take pos ++ x :: (elemsOf h v).drop pos).length
      = v.size + 1 := by
    have := elems_length hw
    simp [List.length_take, List.length_drop, this]
    omega
  unfold insert
  rw [if_pos hg]
  simp only
  set newCap := if v.size != capOf N h v then capOf N h v else capOf N h v * 2
    with hcap
  set nd := (elemsOf h v).take pos ++ x :: (elemsOf h v).drop pos with hnd
  set B1 : Buffer V := ⟨newCap, 1, nd⟩ with hB1
  set B2 : Buffer V := ⟨newCap, 2, nd⟩ with hB2
  set tmp : Vec V := ⟨v.size + 1, false, [], h.length⟩ with htmp
  set h1 : Heap V := h ++ [some B1] with hh1
  set X : Heap V := containerDestroy h v with hX
  have hXlen : X.length = h.length := containerDestroy_length h v
  -- *this = tmp: adopt the fresh buffer
  have step1 : assign h1 v tmp =
      (X ++ [some B2],
       { v with size := v.size + 1, isSmall := false, bufId := h.length }) := by
    rw [assign_adopt rfl]
    have hcd : containerDestroy h1 v = X ++ [some B1] :=
      containerDestroy_append_lt h _ v hlt
    have hgd : hGet (X ++ [some B1]) h.length = some B1 := by
      rw [← hXlen]
      exact hGet_append_self _ _ []
    have hbmp : bumpRef (containerDestroy h1 v) tmp.bufId = X ++ [some B2] := by
      rw [hcd]
      show bumpRef (X ++ [some B1]) h.length = X ++ [some B2]
      rw [bumpRef_of_get_some hgd, ← hXlen, hSet_append_self]
    rw [hbmp]
  rw [step1]
  -- return begin() + diff: the adopted buffer has refCount 2, so it unshares
  set h2 : Heap V := X ++ [some B2] with hh2
  set v1 : Vec V := { v with size := v.size + 1, isSmall := false, bufId := h.length }
    with hv1
  have hlen2 : h2.length = h.length + 1 := by
    rw [hh2]
    simp [hXlen]
  have hgv1 : hGet h2 v1.bufId = some B2 := by
    show hGet (X ++ [some B2]) h.length = some B2
    rw [← hXlen]
    exact hGet_append_self _ _ []
  have hsh2 : sharedBuf h2 v1 = true := by
    rw [sharedBuf_iff rfl hgv1, hB2]
    simp
  have hcap2 : capOf N h2 v1 = newCap := by
    rw [capOf_big rfl hgv1, hB2]
  have hel2 : elemsOf h2 v1 = nd := by
    rw [elems_big rfl hgv1]
    show B2.data.take v1.size = nd
    have hsz1 : v1.size = B2.data.length := by
      show v.size + 1 = B2.data.length
      rw [hB2]
      exact hndlen.symm
    rw [hsz1, List.take_length, hB2]
  rw [dataMut_shared hsh2, hcap2]
  -- the unshare inside data(): fresh buffer, release the adopted one to 1
  have hun : unshare h2 v1 newCap =
      ((X ++ [some B1, some B1] : Heap V),
       { v with size := v.size + 1, isSmall := false, bufId := h.length + 1 }) := by
    have hlt1 : v1.bufId < h2.length := by
      rw [hlen2]
      show h.length < h.length + 1
      omega
    have hrel : releaseRef (h2 ++ [some B1]) v1.bufId = X ++ [some B1, some B1] := by
      rw [releaseRef_append_lt h2 _ hlt1]
      have hr2 : releaseRef h2 v1.bufId = X ++ [some B1] := by
        rw [releaseRef_keep hgv1 (by rw [hB2])]
        rw [show ({ B2 with refCount := B2.refCount - 1 } : Buffer V) = B1 from rfl]
        show hSet (X ++ [some B2]) h.length (some B1) = X ++ [some B1]
        rw [← hXlen, hSet_append_self]
      rw [hr2]
      simp
    simp only [unshare, hel2]
    rw [containerDestroy_big (show v1.isSmall = false from rfl)]
    rw [show (h2 ++ [some ⟨newCap, 1, nd⟩] : Heap V) = h2 ++ [some B1] from rfl]
    rw [hrel]
    simp only [Prod.mk.injEq, true_and]
    rw [hlen2]
  rw [hun]
  -- tmp's destructor: drop the adopted buffer's last reference, freeing it
  have hfin : containerDestroy (X ++ [some B1, some B1] : Heap V) tmp =
      X ++ [none, some B1] := by
    rw [containerDestroy_big (show tmp.isSmall = false from rfl)]
    have hgt : hGet (X ++ [some B1, some B1] : Heap V) tmp.bufId = some B1 := by
      show hGet (X ++ some B1 :: [some B1]) h.length = some B1
      rw [← hXlen]
      exact hGet_append_self _ _ _
    rw [releaseRef_free hgt (by rw [hB1])]
    show hSet (X ++ some B1 :: [some B1]) h.length none = X ++ [none, some B1]
    rw [← hXlen, hSet_append_self]
  rw [hfin]

/-- The in-place branch of `insert` on a small instance. -/
theorem insert_inplace_small {N : Nat} {h : Heap V} {v : Vec V} {pos : Nat} {x : V}
    (hng : (v.size == capOf N h v || sharedBuf h v) = false) (hs : v.isSmall = true) :
    insert N h v pos x =
      (h, { v with
            size := v.size + 1
            small := bubbleDown (elemsOf h v ++ [x]) v.size pos }, pos) := by
  unfold insert
  rw [if_neg (by simp [hng])]
  simp only [hs]
  simp

theorem sharedBuf_big {h : Heap V} {v : Vec V} (hsh : sharedBuf h v = true) :
    v.isSmall = false := by
  by_cases hs : v.isSmall
  · rw [sharedBuf_small hs] at hsh
    simp at hsh
  · simpa using hs

theorem sharedBuf_rc {h : Heap V} {v : Vec V} {b : Buffer V}
    (hsh : sharedBuf h v = true) (hb : hGet h v.bufId = some b) :
    2 ≤ b.refCount := by
  rw [sharedBuf_iff (sharedBuf_big hsh) hb] at hsh
  simp at hsh
  omega

theorem sharedBuf_exists {h : Heap V} {v : Vec V} (hsh : sharedBuf h v = true) :
    ∃ b, hGet h v.bufId = some b ∧ 2 ≤ b.refCount := by
  have hs := sharedBuf_big hsh
  unfold sharedBuf at hsh
  rw [hs] at hsh
  simp only [Bool.not_false, Bool.true_and] at hsh
  cases hb : hGet h v.bufId with
  | none => rw [hb] at hsh; simp at hsh
  | some b =>
      rw [hb] at hsh
      simp at hsh
      exact ⟨b, rfl, by omega⟩

/-- The in-place branch of `insert` on a private big instance. -/
theorem insert_inplace_big {N : Nat} {h : Heap V} {v : Vec V} {pos : Nat} {x : V}
    {b : Buffer V} (hng : (v.size == capOf N h v || sharedBuf h v) = false)
    (hs : v.isSmall = false) (hb : hGet h v.bufId = some b) :
    insert N h v pos x =
      (hSet h v.bufId
         (some { b with data := bubbleDown (elemsOf h v ++ [x]) v.size pos }),
       { v with size := v.size + 1 }, pos) := by
  unfold insert
  rw [if_neg (by simp [hng])]
  simp only [hs]
  simp [hb]

/-! ## `erase` characterization -/

/-- Empty range: only the `begin() + diff` evaluation happens (which unshares
a shared buffer), and the position is returned. -/
theorem erase_empty (N : Nat) (h : Heap V) (v : Vec V) (pos : Nat) :
    eraseRange N h v pos pos = ((dataMut N h v).1, (dataMut N h v).2, pos) := by
  unfold eraseRange
  simp

/-- The in-place branch of `erase` on a small instance. -/
theorem erase_inplace_small {N : Nat} {h : Heap V} {v : Vec V} {left right : Nat}
    (hne : left ≠ right) (hsh : sharedBuf h v = false) (hs : v.isSmall = true) :
    eraseRange N h v left right =
      (h, { v with
            size := v.size - (right - left)
            small := (shiftLoop (elemsOf h v) left right v.size).take
              (v.size - (right - left)) }, left) := by
  unfold eraseRange
  rw [if_neg (by simp [hne])]
  rw [if_neg (by simp [hsh])]
  simp only [hs]
  simp

/-- The in-place branch of `erase` on a private big instance. -/
theorem erase_inplace_big {N : Nat} {h : Heap V} {v : Vec V} {left right : Nat}
    {b : Buffer V} (hne : left ≠ right) (hsh : sharedBuf h v = false)
    (hs : v.isSmall = false) (hb : hGet h v.bufId = some b) :
    eraseRange N h v left right =
      (hSet h v.bufId (some { b with
         data := (shiftLoop (elemsOf h v) left right v.size).take
           (v.size - (right - left)) }),
       { v with size := v.size - (right - left) }, left) := by
  unfold eraseRange
  rw [if_neg (by simp [hne])]
  rw [if_neg (by simp [hsh])]
  simp only [hs]
  simp [hb]

/-- The shared branch of `erase`, fully unfolded: a replacement buffer with the
kept elements is built in a fresh slot and swapped in (the three adoptions in
`swap` move no elements and net out), the reference on the old shared buffer
is dropped, and the instance ends privately owning the fresh buffer. -/
theorem erase_shared {N : Nat} {h : Heap V} {v : Vec V} {left right : Nat}
    {b : Buffer V} (hb : hGet h v.bufId = some b) (hsh : sharedBuf h v = true)
    (hlr : left < right) (hr : right ≤ v.size) :
    eraseRange N h v left right =
      ((hSet h v.bufId (some { b with refCount := b.refCount - 1 }) ++
          [some ⟨b.cap, 1,
             b.data.take left ++ (b.data.drop right).take (v.size - right)⟩] : Heap V),
       { v with
         size := v.size - (right - left)
         isSmall := false
         bufId := h.length },
       left) := by
  have hs : v.isSmall = false := sharedBuf_big hsh
  have hrc : 2 ≤ b.refCount := sharedBuf_rc hsh hb
  have hlt : v.bufId < h.length := hGet_lt_length hb
  have hcap0 : capOf N h v = b.cap := capOf_big hs hb
  unfold eraseRange
  rw [if_neg (by simp [Nat.ne_of_lt hlr])]
  rw [if_pos hsh]
  simp only [hb, hcap0]
  set nd := b.data.take left ++ (b.data.drop right).take (v.size - right) with hnd
  set ns := v.size - (right - left) with hns
  set BT : Buffer V := ⟨b.cap, 1, nd⟩ with hBT
  set BT2 : Buffer V := ⟨b.cap, 2, nd⟩ with hBT2
  set bP : Buffer V := { b with refCount := b.refCount + 1 } with hbP
  set h1 : Heap V := h ++ [some BT] with hh1
  set tmp : Vec V := ⟨ns, false, [], h.length⟩ with htmp
  have hnsv : ns < v.size := by omega
  have hg1v : hGet h1 v.bufId = some b := by
    rw [hh1, hGet_append_lt h _ _ hlt]
    exact hb
  have hg1t : hGet h1 h.length = some BT := by
    rw [hh1]
    exact hGet_append_self _ _ []
  -- the swap: three buffer adoptions, no element copies
  have hswap : swapV h1 v tmp =
      (h1, { v with size := ns, isSmall := false, bufId := h.length },
       (⟨v.size, false, [], v.bufId⟩ : Vec V)) := by
    unfold swapV
    rw [if_pos (by simpa using hnsv)]
    unfold swapCore
    rw [if_neg (by simp)]
    simp only
    -- socow_vector tmp2(other);   [other = v, big: adopt]
    have hpc : copyCtor h1 v =
        ((hSet h v.bufId (some bP) ++ [some BT] : Heap V),
         (⟨v.size, false, [], v.bufId⟩ : Vec V)) := by
      unfold copyCtor
      rw [assign_adopt hs]
      rw [containerDestroy_small rfl]
      rw [bumpRef_of_get_some hg1v, hh1]
      rw [hSet_append_lt h _ _ hlt]
    rw [hpc]
    set h2 : Heap V := hSet h v.bufId (some bP) ++ [some BT] with hh2
    have hltP : v.bufId < (hSet h v.bufId (some bP)).length := by
      rw [hSet_length]
      exact hlt
    have hg2v : hGet h2 v.bufId = some bP := by
      rw [hh2, hGet_append_lt _ _ _ hltP]
      exact hGet_hSet_self h _ hlt
    -- other = *this;   [v = tmp, big: adopt]
    have hq : assign h2 v tmp =
        ((h ++ [some BT2] : Heap V),
         { v with size := ns, isSmall := false, bufId := h.length }) := by
      rw [assign_adopt rfl]
      rw [containerDestroy_big hs]
      have hrel : releaseRef h2 v.bufId = h1 := by
        rw [releaseRef_keep hg2v (by rw [hbP]; simp; omega)]
        rw [hh2, hSet_append_lt _ _ _ hltP, hSet_hSet_self]
        rw [show ({ bP with refCount := bP.refCount - 1 } : Buffer V)
          = b from by rw [hbP]; simp]
        rw [hSet_get_self hb, hh1]
      rw [hrel]
      rw [bumpRef_of_get_some hg1t, hh1]
      rw [← show (h : Heap V).length = h.length from rfl]
      rw [hSet_append_self]
    rw [hq]
    -- *this = tmp2;   [tmp = copy of v, big: adopt]
    have hg3t : hGet (h ++ [some BT2] : Heap V) h.length = some BT2 :=
      hGet_append_self _ _ []
    have hg3v : hGet (h ++ [some BT2] : Heap V) v.bufId = some b := by
      rw [hGet_append_lt h _ _ hlt]
      exact hb
    have hr3 : assign (h ++ [some BT2] : Heap V) tmp
        (⟨v.size, false, [], v.bufId⟩ : Vec V) =
        (h2, (⟨v.size, false, [], v.bufId⟩ : Vec V)) := by
      rw [assign_adopt rfl]
      rw [containerDestroy_big rfl]
      have hrel : releaseRef (h ++ [some BT2] : Heap V) tmp.bufId = h1 := by
        rw [releaseRef_keep hg3t (by rw [hBT2])]
        rw [show ({ BT2 with refCount := BT2.refCount - 1 } : Buffer V)
          = BT from by simp [hBT2, hBT]]
        show hSet (h ++ some BT2 :: []) h.length (some BT) = h1
        rw [hSet_append_self, hh1]
      rw [hrel]
      rw [bumpRef_of_get_some hg1v, hh1]
      rw [hSet_append_lt h _ _ hlt, hh2]
    rw [hr3]
    -- tmp2 dies: release its adopted reference
    have hfin : containerDestroy h2 (⟨v.size, false, [], v.bufId⟩ : Vec V) = h1 := by
      rw [containerDestroy_big rfl]
      show releaseRef h2 v.bufId = h1
      rw [releaseRef_keep hg2v (by rw [hbP]; simp; omega)]
      rw [hh2, hSet_append_lt _ _ _ hltP, hSet_hSet_self]
      rw [show ({ bP with refCount := bP.refCount - 1 } : Buffer V)
        = b from by rw [hbP]; simp]
      rw [hSet_get_self hb, hh1]
    rw [hfin]
  rw [hswap]
  -- return begin() + diff: the fresh buffer is private, no further unshare
  have hg1t2 : hGet h1 h.length = some BT := hg1t
  have hnosh : sharedBuf h1
      { v with size := ns, isSmall := false, bufId := h.length } = false := by
    rw [sharedBuf_iff rfl hg1t2, hBT]
    simp
  rw [dataMut_not_shared hnosh]
  -- the local tmp of erase dies, dropping the old shared buffer's reference
  have hdone : containerDestroy h1 (⟨v.size, false, [], v.bufId⟩ : Vec V) =
      hSet h v.bufId (some { b with refCount := b.refCount - 1 }) ++ [some BT] := by
    rw [containerDestroy_big rfl]
    show releaseRef h1 v.bufId = _
    rw [releaseRef_keep hg1v hrc, hh1, hSet_append_lt h _ _ hlt]
  rw [hdone]

/-! ## `swap` characterization -/

theorem wf_default (N : Nat) (h : Heap V) :
    wfB N h (⟨0, true, [], 0⟩ : Vec V) = true := by
  simp [wfB]

theorem copyCtor_big {h : Heap V} {s : Vec V} (hs : s.isSmall = false) :
    copyCtor h s = (bumpRef h s.bufId, (⟨s.size, false, [], s.bufId⟩ : Vec V)) := by
  unfold copyCtor
  rw [assign_adopt hs, containerDestroy_small rfl]

theorem copyCtor_small {N : Nat} {h : Heap V} {s : Vec V} (hs : s.isSmall = true)
    (hws : wfB N h s = true) :
    copyCtor h s = (h, (⟨s.size, true, elemsOf h s, 0⟩ : Vec V)) := by
  unfold copyCtor
  rw [assign_small_small_wf hs rfl (wf_default N h) hws]

theorem pairOK_symm {h : Heap V} {a b : Vec V} (hp : pairOK h a b = true) :
    pairOK h b a = true := by
  by_cases hc : (!b.isSmall && !a.isSmall && b.bufId == a.bufId) = true
  · simp only [Bool.and_eq_true, Bool.not_eq_true', beq_iff_eq] at hc
    obtain ⟨⟨hb, ha⟩, hid⟩ := hc
    obtain ⟨c, hgc, h2⟩ := pair_shared hp ha hb hid.symm
    rw [← hid] at hgc
    exact pairOK_of_shared hgc h2
  · unfold pairOK
    rw [if_neg hc]

/-- `swap` on two small instances: the element sequences and sizes are
exchanged in place. -/
theorem swapCore_ss {N : Nat} {h : Heap V} {a b : Vec V} (ha : a.isSmall = true)
    (hb : b.isSmall = true) (hwa : wfB N h a = true) (hwb : wfB N h b = true)
    (hab : a.size ≤ b.size) :
    swapCore h a b =
      (h, { a with size := b.size, small := elemsOf h b },
       { b with size := a.size, small := elemsOf h a }) := by
  have hla : (a.small.take a.size).length = a.size := by
    simp [List.length_take, (wf_small hwa ha).1]
  have hlb : (b.small.take b.size).length = b.size := by
    simp [List.length_take, (wf_small hwb hb).1]
  unfold swapCore
  rw [if_pos (by simp [ha, hb])]
  simp only
  have key2 : (a.small.take a.size ++ (b.small.take b.size).drop a.size).take a.size
      = elemsOf h a := by
    have h2 := List.take_left (a.small.take a.size) ((b.small.take b.size).drop a.size)
    rw [hla] at h2
    rw [h2, elems_small ha]
  have key1 : (b.small.take b.size).take a.size ++
      (a.small.take a.size ++ (b.small.take b.size).drop a.size).drop a.size
      = elemsOf h b := by
    have h2 := List.drop_left (a.small.take a.size) ((b.small.take b.size).drop a.size)
    rw [hla] at h2
    rw [h2, List.take_append_drop, elems_small hb]
  rw [key1, key2]

/-- `swap` with `*this` small and `other` big: `*this` adopts the buffer,
`other` is copied down to small storage; the heap is net unchanged. -/
theorem swapCore_sb {h : Heap V} {a b : Vec V} {bb : Buffer V}
    (ha : a.isSmall = true) (hb : b.isSmall = false)
    (hgb : hGet h b.bufId = some bb) (hrc : 1 ≤ bb.refCount) :
    swapCore h a b =
      (h, { a with size := b.size, isSmall := false, bufId := b.bufId },
       { b with
         size := a.size
         isSmall := true
         small := (elemsOf h a).take a.size }) := by
  unfold swapCore
  rw [if_neg (by simp [hb])]
  simp only
  rw [copyCtor_big hb]
  rw [bumpRef_of_get_some hgb]
  set bbP : Buffer V := { bb with refCount := bb.refCount + 1 } with hbbP
  set h2 : Heap V := hSet h b.bufId (some bbP) with hh2
  have hlt : b.bufId < h.length := hGet_lt_length hgb
  have hg2 : hGet h2 b.bufId = some bbP := hGet_hSet_self h _ hlt
  have hrc2 : 2 ≤ bbP.refCount := by
    rw [hbbP]
    exact Nat.succ_le_succ hrc
  have hrel : releaseRef h2 b.bufId = h := by
    rw [releaseRef_keep hg2 hrc2]
    rw [hh2, hSet_hSet_self]
    rw [show ({ bbP with refCount := bbP.refCount - 1 } : Buffer V) = bb
      from by simp [hbbP]]
    exact hSet_get_self hgb
  have hq : assign h2 b a =
      (h, { b with
            size := a.size
            isSmall := true
            small := (elemsOf h a).take a.size }) := by
    rw [assign_big_small ha hb, hrel]
    rw [show elemsOf h2 a = elemsOf h a from by rw [elems_small ha, elems_small ha]]
  rw [hq]
  have hr : assign h a (⟨b.size, false, [], b.bufId⟩ : Vec V) =
      (h2, { a with size := b.size, isSmall := false, bufId := b.bufId }) := by
    rw [assign_adopt rfl, containerDestroy_small ha]
    rw [bumpRef_of_get_some hgb, hh2]
  rw [hr]
  have hfin : containerDestroy h2 (⟨b.size, false, [], b.bufId⟩ : Vec V) = h := by
    rw [containerDestroy_big rfl]
    exact hrel
  rw [hfin]

/-- `swap` with `*this` big and `other` small: symmetric to the previous
case. -/
theorem swapCore_bs {N : Nat} {h : Heap V} {a b : Vec V} {ba : Buffer V}
    (ha : a.isSmall = false) (hb : b.isSmall = true) (hwb : wfB N h b = true)
    (hga : hGet h a.bufId = some ba) (hrc : 1 ≤ ba.refCount) :
    swapCore h a b =
      (h, { a with size := b.size, isSmall := true, small := elemsOf h b },
       { b with size := a.size, isSmall := false, bufId := a.bufId }) := by
  have hlb : (elemsOf h b).length = b.size := elems_length hwb
  unfold swapCore
  rw [if_neg (by simp [ha])]
  simp only
  rw [copyCtor_small hb hwb]
  set baP : Buffer V := { ba with refCount := ba.refCount + 1 } with hbaP
  have hlt : a.bufId < h.length := hGet_lt_length hga
  set h3 : Heap V := hSet h a.bufId (some baP) with hh3
  have hg3 : hGet h3 a.bufId = some baP := hGet_hSet_self h _ hlt
  have hrc2 : 2 ≤ baP.refCount := by
    rw [hbaP]
    exact Nat.succ_le_succ hrc
  have hrel : releaseRef h3 a.bufId = h := by
    rw [releaseRef_keep hg3 hrc2]
    rw [hh3, hSet_hSet_self]
    rw [show ({ baP with refCount := baP.refCount - 1 } : Buffer V) = ba
      from by simp [hbaP]]
    exact hSet_get_self hga
  have hq : assign h b a =
      (h3, { b with size := a.size, isSmall := false, bufId := a.bufId }) := by
    rw [assign_adopt ha, containerDestroy_small hb]
    rw [bumpRef_of_get_some hga, hh3]
  rw [hq]
  have hr : assign h3 a (⟨b.size, true, elemsOf h b, 0⟩ : Vec V) =
      (h, { a with size := b.size, isSmall := true, small := elemsOf h b }) := by
    rw [assign_big_small rfl ha, hrel]
    have he : elemsOf h3 (⟨b.size, true, elemsOf h b, 0⟩ : Vec V) = elemsOf h b := by
      rw [elems_small rfl]
      show (elemsOf h b).take b.size = elemsOf h b
      rw [← hlb, List.take_length]
    rw [he]
    have he2 : (elemsOf h b).take b.size = elemsOf h b := by
      rw [← hlb, List.take_length]
    show (h, { a with
      size := b.size
      isSmall := true
      small := (elemsOf h b).take b.size }) = _
    rw [he2]
  rw [hr]
  rw [containerDestroy_small rfl]

/-- `swap` with both instances big: the two buffers are exchanged by the three
adoptions; the heap is net unchanged. -/
theorem swapCore_bb {h : Heap V} {a b : Vec V} {ba bb : Buffer V}
    (ha : a.isSmall = false) (hb : b.isSmall = false)
    (hga : hGet h a.bufId = some ba) (hgb : hGet h b.bufId = some bb)
    (hrca : 1 ≤ ba.refCount) (hrcb : 1 ≤ bb.refCount) (hp : pairOK h a b = true) :
    swapCore h a b =
      (h, { a with size := b.size, isSmall := false, bufId := b.bufId },
       { b with size := a.size, isSmall := false, bufId := a.bufId }) := by
  have hlta : a.bufId < h.length := hGet_lt_length hga
  have hltb : b.bufId < h.length := hGet_lt_length hgb
  unfold swapCore
  rw [if_neg (by simp [ha])]
  simp only
  rw [copyCtor_big hb]
  rw [bumpRef_of_get_some hgb]
  set bbP : Buffer V := { bb with refCount := bb.refCount + 1 } with hbbP
  set h2 : Heap V := hSet h b.bufId (some bbP) with hh2
  have hg2b : hGet h2 b.bufId = some bbP := hGet_hSet_self h _ hltb
  have hrcb2 : 2 ≤ bbP.refCount := by
    rw [hbbP]
    exact Nat.succ_le_succ hrcb
  have hrelb : releaseRef h2 b.bufId = h := by
    rw [releaseRef_keep hg2b hrcb2]
    rw [hh2, hSet_hSet_self]
    rw [show ({ bbP with refCount := bbP.refCount - 1 } : Buffer V) = bb
      from by simp [hbbP]]
    exact hSet_get_self hgb
  by_cases hid : a.bufId = b.bufId
  · -- both already share one buffer
    have hba : ba = bb := by
      rw [hid] at hga
      rw [hga] at hgb
      exact Option.some.inj hgb
    have hq : assign h2 b a =
        (h2, { b with size := a.size, isSmall := false, bufId := a.bufId }) := by
      rw [assign_adopt ha, containerDestroy_big hb, hrelb]
      rw [hid, bumpRef_of_get_some hgb, hh2]
    rw [hq]
    have hrela : releaseRef h2 a.bufId = h := by
      rw [hid]
      exact hrelb
    have hr : assign h2 a (⟨b.size, false, [], b.bufId⟩ : Vec V) =
        (h2, { a with size := b.size, isSmall := false, bufId := b.bufId }) := by
      rw [assign_adopt rfl, containerDestroy_big ha, hrela]
      rw [bumpRef_of_get_some hgb, hh2]
    rw [hr]
    have hfin : containerDestroy h2 (⟨b.size, false, [], b.bufId⟩ : Vec V) = h := by
      rw [containerDestroy_big rfl]
      exact hrelb
    rw [hfin]
  · -- distinct buffers
    have hg2a : hGet h2 a.bufId = some ba := by
      rw [hh2, hGet_hSet_ne h _ (fun he => hid he.symm)]
      exact hga
    set baP : Buffer V := { ba with refCount := ba.refCount + 1 } with hbaP
    set h3 : Heap V := hSet h a.bufId (some baP) with hh3
    have hq : assign h2 b a =
        (h3, { b with size := a.size, isSmall := false, bufId := a.bufId }) := by
      rw [assign_adopt ha, containerDestroy_big hb, hrelb]
      rw [bumpRef_of_get_some hga, hh3]
    rw [hq]
    have hg3a : hGet h3 a.bufId = some baP := hGet_hSet_self h _ hlta
    have hrca2 : 2 ≤ baP.refCount := by
      rw [hbaP]
      exact Nat.succ_le_succ hrca
    have hrela : releaseRef h3 a.bufId = h := by
      rw [releaseRef_keep hg3a hrca2]
      rw [hh3, hSet_hSet_self]
      rw [show ({ baP with refCount := baP.refCount - 1 } : Buffer V) = ba
        from by simp [hbaP]]
      exact hSet_get_self hga
    have hr : assign h3 a (⟨b.size, false, [], b.bufId⟩ : Vec V) =
        (h2, { a with size := b.size, isSmall := false, bufId := b.bufId }) := by
      rw [assign_adopt rfl, containerDestroy_big ha, hrela]
      rw [bumpRef_of_get_some hgb, hh2]
    rw [hr]
    have hfin : containerDestroy h2 (⟨b.size, false, [], b.bufId⟩ : Vec V) = h := by
      rw [containerDestroy_big rfl]
      exact hrelb
    rw [hfin]

/-- `swap` (with the smaller instance as `*this`) exchanges the observable
states, preserves well-formedness and the pair coherence. -/
theorem swapCore_exchange {N : Nat} {h : Heap V} {a b : Vec V}
    (hwa : wfB N h a = true) (hwb : wfB N h b = true) (hp : pairOK h a b = true)
    (hab : a.size ≤ b.size) :
    obsOf N (swapCore h a b).1 (swapCore h a b).2.1 = obsOf N h b ∧
    obsOf N (swapCore h a b).1 (swapCore h a b).2.2 = obsOf N h a ∧
    wfB N (swapCore h a b).1 (swapCore h a b).2.1 = true ∧
    wfB N (swapCore h a b).1 (swapCore h a b).2.2 = true ∧
    pairOK (swapCore h a b).1 (swapCore h a b).2.1 (swapCore h a b).2.2 = true := by
  by_cases ha : a.isSmall
  · by_cases hb : b.isSmall
    · -- both small
      rw [swapCore_ss ha hb hwa hwb hab]
      have ha' : ({ a with size := b.size, small := elemsOf h b } : Vec V).isSmall
          = true := ha
      have hb' : ({ b with size := a.size, small := elemsOf h a } : Vec V).isSmall
          = true := hb
      have hkb : (elemsOf h b).take b.size = b.small.take b.size := by
        rw [elems_small hb]
        simp [List.take_take]
      have hka : (elemsOf h a).take a.size = a.small.take a.size := by
        rw [elems_small ha]
        simp [List.take_take]
      refine ⟨?_, ?_, ?_, ?_, pairOK_of_small_left ha'⟩
      · rw [obs_small ha', obs_small hb]
        simp only
        rw [hkb]
      · rw [obs_small hb', obs_small ha]
        simp only
        rw [hka]
      · exact wf_small_intro ha' (by simpa using elems_length hwb)
          (by simpa using (wf_small hwb hb).2)
      · exact wf_small_intro hb' (by simpa using elems_length hwa)
          (by simpa using (wf_small hwa ha).2)
    · -- a small, b big
      replace hb : b.isSmall = false := by simpa using hb
      obtain ⟨bb, hgb, hdlb, hleb, hcapb, hrcb⟩ := wf_big hwb hb
      rw [swapCore_sb ha hb hgb hrcb]
      have hla : (elemsOf h a).length = a.size := elems_length hwa
      refine ⟨?_, ?_, ?_, ?_, pairOK_of_small_right rfl⟩
      · have hsm : ({ a with size := b.size, isSmall := false, bufId := b.bufId } : Vec V).isSmall = false := rfl
        rw [obs_big hsm hgb, obs_big hb hgb]
      · have hsm : ({ b with
            size := a.size
            isSmall := true
            small := (elemsOf h a).take a.size } : Vec V).isSmall = true := rfl
        rw [obs_small hsm, obs_small ha]
        simp only
        have hkey : ((elemsOf h a).take a.size).take a.size = a.small.take a.size := by
          rw [elems_small ha]
          simp [List.take_take]
        rw [hkey]
      · exact wf_big_intro rfl hgb (by simpa using hdlb) (by simpa using hleb)
          hcapb hrcb
      · refine wf_small_intro rfl ?_ (by simpa using (wf_small hwa ha).2)
        simp only [List.length_take]
        omega
  · replace ha : a.isSmall = false := by simpa using ha
    obtain ⟨ba, hga, hdla, hlea, hcapa, hrca⟩ := wf_big hwa ha
    by_cases hb : b.isSmall
    · -- a big, b small
      rw [swapCore_bs ha hb hwb hga hrca]
      refine ⟨?_, ?_, ?_, ?_, pairOK_of_small_left rfl⟩
      · have hsm : ({ a with size := b.size, isSmall := true, small := elemsOf h b } : Vec V).isSmall = true := rfl
        rw [obs_small hsm, obs_small hb]
        simp only
        have hkey : (elemsOf h b).take b.size = b.small.take b.size := by
          rw [elems_small hb]
          simp [List.take_take]
        rw [hkey]
      · have hsm : ({ b with size := a.size, isSmall := false, bufId := a.bufId } : Vec V).isSmall = false := rfl
        rw [obs_big hsm hga, obs_big ha hga]
      · refine wf_small_intro rfl (by simpa using elems_length hwb)
          (by simpa using (wf_small hwb hb).2)
      · exact wf_big_intro rfl hga (by simpa using hdla) (by simpa using hlea)
          hcapa hrca
    · -- both big
      replace hb : b.isSmall = false := by simpa using hb
      obtain ⟨bb, hgb, hdlb, hleb, hcapb, hrcb⟩ := wf_big hwb hb
      rw [swapCore_bb ha hb hga hgb hrca hrcb hp]
      refine ⟨?_, ?_, ?_, ?_, ?_⟩
      · have hsm : ({ a with size := b.size, isSmall := false, bufId := b.bufId } : Vec V).isSmall = false := rfl
        rw [obs_big hsm hgb, obs_big hb hgb]
      · have hsm : ({ b with size := a.size, isSmall := false, bufId := a.bufId } : Vec V).isSmall = false := rfl
        rw [obs_big hsm hga, obs_big ha hga]
      · exact wf_big_intro rfl hgb (by simpa using hdlb) (by simpa using hleb)
          hcapb hrcb
      · exact wf_big_intro rfl hga (by simpa using hdla) (by simpa using hlea)
          hcapa hrca
      · by_cases hid : b.bufId = a.bufId
        · obtain ⟨c, hgc, h2c⟩ := pair_shared hp ha hb hid.symm
          rw [hid.symm] at hgc
          exact pairOK_of_shared hgc h2c
        · exact pairOK_of_ne hid

/-- `swap` exchanges observable states and preserves well-formedness and pair
coherence. -/
theorem swapV_exchange {N : Nat} {h : Heap V} {a b : Vec V}
    (hwa : wfB N h a = true) (hwb : wfB N h b = true) (hp : pairOK h a b = true) :
    obsOf N (swapV h a b).1 (swapV h a b).2.1 = obsOf N h b ∧
    obsOf N (swapV h a b).1 (swapV h a b).2.2 = obsOf N h a ∧
    wfB N (swapV h a b).1 (swapV h a b).2.1 = true ∧
    wfB N (swapV h a b).1 (swapV h a b).2.2 = true ∧
    pairOK (swapV h a b).1 (swapV h a b).2.1 (swapV h a b).2.2 = true := by
  unfold swapV
  by_cases hlt : b.size < a.size
  · rw [if_pos hlt]
    obtain ⟨e1, e2, w1, w2, pp⟩ :=
      swapCore_exchange hwb hwa (pairOK_symm hp) (Nat.le_of_lt hlt)
    exact ⟨e2, e1, w2, w1, pairOK_symm pp⟩
  · rw [if_neg hlt]
    exact swapCore_exchange hwa hwb hp (by omega)

/-! ## Well-formedness preservation and observable effects of the mutators -/

theorem nd_length {N : Nat} {h : Heap V} {v : Vec V} {pos : Nat} (x : V)
    (hw : wfB N h v = true) (hpos : pos ≤ v.size) :
    ((elemsOf h v).take pos ++ x :: (elemsOf h v).drop pos).length = v.size + 1 := by
  have := elems_length hw
  simp [List.length_take, List.length_drop, this]
  omega

theorem capOf_pos {N : Nat} {h : Heap V} {v : Vec V} (hw : wfB N h v = true)
    (hN : 0 < N) : 1 ≤ capOf N h v := by
  by_cases hs : v.isSmall
  · rw [capOf_small hs]
    exact hN
  · replace hs : v.isSmall = false := by simpa using hs
    obtain ⟨b, hb, _, _, hcap, _⟩ := wf_big hw hs
    rw [capOf_big hs hb]
    exact hcap

theorem insert_wf {N : Nat} {h : Heap V} {v : Vec V} {pos : Nat} {x : V}
    (hw : wfB N h v = true) (hN : 0 < N) (hpos : pos ≤ v.size) :
    wfB N (insert N h v pos x).1 (insert N h v pos x).2.1 = true := by
  by_cases hg : (v.size == capOf N h v || sharedBuf h v) = true
  · rw [insert_growth hw hpos hg]
    set newCap := if v.size != capOf N h v then capOf N h v else capOf N h v * 2
      with hnc
    set nd := (elemsOf h v).take pos ++ x :: (elemsOf h v).drop pos with hnd
    have hget : hGet (containerDestroy h v ++ [none, some ⟨newCap, 1, nd⟩])
        (h.length + 1) = some ⟨newCap, 1, nd⟩ := by
      have h0 := hGet_append_right (containerDestroy h v)
        [none, some ⟨newCap, 1, nd⟩] 1
      rw [containerDestroy_length] at h0
      exact h0
    have hcap1 : 1 ≤ capOf N h v := capOf_pos hw hN
    have hle : v.size ≤ capOf N h v := wf_size_le_cap hw
    have hnewcap : v.size + 1 ≤ newCap := by
      rw [hnc]
      by_cases he : v.size = capOf N h v
      · simp [he]
        omega
      · have : (v.size != capOf N h v) = true := by simp [he]
        rw [if_pos this]
        omega
    refine wf_big_intro rfl hget ?_ ?_ ?_ ?_
    · exact nd_length x hw hpos
    · exact hnewcap
    · simp
      omega
    · simp
  · replace hg : (v.size == capOf N h v || sharedBuf h v) = false := by
      simpa using hg
    have hne : v.size ≠ capOf N h v := by
      intro he
      rw [Bool.or_eq_false_iff] at hg
      have := hg.1
      simp [he] at this
    have hlt : v.size < capOf N h v := by
      have := wf_size_le_cap hw
      omega
    by_cases hs : v.isSmall
    · rw [insert_inplace_small hg hs]
      refine wf_small_intro hs ?_ ?_
      · show (bubbleDown (elemsOf h v ++ [x]) v.size pos).length = v.size + 1
        rw [bubbleDown_length]
        simp [elems_length hw]
      · show v.size + 1 ≤ N
        rw [capOf_small hs] at hlt
        omega
    · replace hs : v.isSmall = false := by simpa using hs
      obtain ⟨b, hb, hlen, hle2, hcap, hrc⟩ := wf_big hw hs
      rw [insert_inplace_big hg hs hb]
      have hget : hGet (hSet h v.bufId
          (some { b with data := bubbleDown (elemsOf h v ++ [x]) v.size pos }))
          v.bufId =
          some { b with data := bubbleDown (elemsOf h v ++ [x]) v.size pos } :=
        hGet_hSet_self h _ (hGet_lt_length hb)
      refine wf_big_intro hs hget ?_ ?_ ?_ ?_
      · show (bubbleDown (elemsOf h v ++ [x]) v.size pos).length = v.size + 1
        rw [bubbleDown_length]
        simp [elems_length hw]
      · show v.size + 1 ≤ b.cap
        rw [capOf_big hs hb] at hlt
        omega
      · exact hcap
      · exact hrc

theorem erase_wf {N : Nat} {h : Heap V} {v : Vec V} {left right : Nat}
    (hw : wfB N h v = true) (hlr : left ≤ right) (hr : right ≤ v.size) :
    wfB N (eraseRange N h v left right).1 (eraseRange N h v left right).2.1 = true := by
  by_cases heq : left = right
  · subst heq
    rw [erase_empty]
    by_cases hsh : sharedBuf h v = true
    · rw [dataMut_shared hsh]
      have hs := sharedBuf_big hsh
      obtain ⟨b, hb, _, _, hcap, _⟩ := wf_big hw hs
      exact unshare_wf hw (wf_size_le_cap hw) (by rw [capOf_big hs hb]; exact hcap)
    · rw [dataMut_not_shared (by simpa using hsh)]
      exact hw
  · have hlr2 : left < right := by omega
    by_cases hsh : sharedBuf h v = true
    · have hs := sharedBuf_big hsh
      obtain ⟨b, hb, hlen, hle, hcap, hrc⟩ := wf_big hw hs
      rw [erase_shared hb hsh hlr2 hr]
      set nd := b.data.take left ++ (b.data.drop right).take (v.size - right)
        with hnd
      have hget : hGet (hSet h v.bufId
            (some { b with refCount := b.refCount - 1 }) ++ [some ⟨b.cap, 1, nd⟩])
          h.length = some ⟨b.cap, 1, nd⟩ := by
        have h0 : (hSet h v.bufId
            (some { b with refCount := b.refCount - 1 })).length = h.length :=
          hSet_length h _ _
        rw [← h0]
        exact hGet_append_self _ _ []
      refine wf_big_intro rfl hget ?_ ?_ ?_ ?_
      · show nd.length = v.size - (right - left)
        rw [hnd]
        simp [List.length_take, List.length_drop, hlen]
        omega
      · show v.size - (right - left) ≤ b.cap
        omega
      · exact hcap
      · simp
    · replace hsh : sharedBuf h v = false := by simpa using hsh
      have hlen1 : (shiftLoop (elemsOf h v) left right v.size).length = v.size := by
        rw [shiftLoop_length]
        exact elems_length hw
      by_cases hs : v.isSmall
      · rw [erase_inplace_small heq hsh hs]
        refine wf_small_intro hs ?_ ?_
        · show ((shiftLoop (elemsOf h v) left right v.size).take
            (v.size - (right - left))).length = v.size - (right - left)
          simp [List.length_take, hlen1]
        · show v.size - (right - left) ≤ N
          have := (wf_small hw hs).2
          omega
      · replace hs : v.isSmall = false := by simpa using hs
        obtain ⟨b, hb, hlen, hle, hcap, hrc⟩ := wf_big hw hs
        rw [erase_inplace_big heq hsh hs hb]
        have hget : hGet (hSet h v.bufId (some { b with
            data := (shiftLoop (elemsOf h v) left right v.size).take
              (v.size - (right - left)) })) v.bufId =
            some { b with
              data := (shiftLoop (elemsOf h v) left right v.size).take
                (v.size - (right - left)) } :=
          hGet_hSet_self h _ (hGet_lt_length hb)
        refine wf_big_intro hs hget ?_ ?_ ?_ ?_
        · show ((shiftLoop (elemsOf h v) left right v.size).take
            (v.size - (right - left))).length = v.size - (right - left)
          simp [List.length_take, hlen1]
        · show v.size - (right - left) ≤ b.cap
          omega
        · exact hcap
        · exact hrc

theorem reserve_wf {N : Nat} {h : Heap V} {v : Vec V} (c : Nat)
    (hw : wfB N h v = true) :
    wfB N (reserve N h v c).1 (reserve N h v c).2 = true := by
  by_cases hc : v.size < c
  · by_cases hsh : sharedBuf h v = true
    · by_cases hcN : c ≤ N
      · have hs := sharedBuf_big hsh
        obtain ⟨b, hb, _⟩ := wf_big hw hs
        rw [reserve_demote hc hsh hcN hb]
        exact copyToSmall_wf hw hs hb (by omega)
      · rw [reserve_unshare hc (Or.inl hsh) (fun hx => hcN hx.2)]
        exact unshare_wf hw (by omega) (by omega)
    · replace hsh : sharedBuf h v = false := by simpa using hsh
      by_cases hcap : capOf N h v < c
      · rw [reserve_unshare hc (Or.inr hcap) (fun hx => by rw [hsh] at hx; simp at hx)]
        exact unshare_wf hw (by omega) (by omega)
      · rw [reserve_keep hc hsh hcap]
        exact hw
  · rw [reserve_noop hc]
    exact hw

theorem shrink_wf {N : Nat} {h : Heap V} {v : Vec V} (hw : wfB N h v = true) :
    wfB N (shrinkToFit N h v).1 (shrinkToFit N h v).2 = true := by
  by_cases hs : v.isSmall
  · rw [shrink_noop_small hs]
    exact hw
  · replace hs : v.isSmall = false := by simpa using hs
    by_cases hcap : v.size < capOf N h v
    · obtain ⟨b, hb, _⟩ := wf_big hw hs
      by_cases hsN : v.size ≤ N
      · rw [shrink_demote hs hcap hsN hb]
        exact copyToSmall_wf hw hs hb hsN
      · rw [shrink_unshare hs hcap hsN]
        exact unshare_wf hw (by omega) (by omega)
    · rw [shrink_noop_full hcap]
      exact hw

theorem clear_wf {N : Nat} {h : Heap V} {v : Vec V} (hw : wfB N h v = true) :
    wfB N (clear h v).1 (clear h v).2 = true := by
  by_cases hsh : sharedBuf h v = true
  · rw [clear_shared hsh]
    exact wf_small_intro rfl rfl (by simp)
  · replace hsh : sharedBuf h v = false := by simpa using hsh
    by_cases hs : v.isSmall
    · rw [clear_small hs]
      exact wf_small_intro hs rfl (by simp)
    · replace hs : v.isSmall = false := by simpa using hs
      obtain ⟨b, hb, _, _, hcap, hrc⟩ := wf_big hw hs
      rw [clear_private_big hsh hs hb]
      have hget : hGet (hSet h v.bufId (some { b with data := [] })) v.bufId =
          some { b with data := [] } := hGet_hSet_self h _ (hGet_lt_length hb)
      exact wf_big_intro hs hget rfl (by simp) hcap hrc

/-- `reserve` never changes the size or the element values. -/
theorem reserve_obs {N : Nat} {h : Heap V} {v : Vec V} (c : Nat)
    (hw : wfB N h v = true) :
    ((reserve N h v c).2).size = v.size ∧
    elemsOf (reserve N h v c).1 (reserve N h v c).2 = elemsOf h v := by
  by_cases hc : v.size < c
  · by_cases hsh : sharedBuf h v = true
    · by_cases hcN : c ≤ N
      · have hs := sharedBuf_big hsh
        obtain ⟨b, hb, _⟩ := wf_big hw hs
        rw [reserve_demote hc hsh hcN hb]
        have h0 := copyToSmall_obs hw hs hb
        exact ⟨congrArg Obs.size h0, congrArg Obs.elems h0⟩
      · rw [reserve_unshare hc (Or.inl hsh) (fun hx => hcN hx.2)]
        have h0 := unshare_obs hw c
        exact ⟨congrArg Obs.size h0, congrArg Obs.elems h0⟩
    · replace hsh : sharedBuf h v = false := by simpa using hsh
      by_cases hcap : capOf N h v < c
      · rw [reserve_unshare hc (Or.inr hcap) (fun hx => by rw [hsh] at hx; simp at hx)]
        have h0 := unshare_obs hw c
        exact ⟨congrArg Obs.size h0, congrArg Obs.elems h0⟩
      · rw [reserve_keep hc hsh hcap]
        exact ⟨rfl, rfl⟩
  · rw [reserve_noop hc]
    exact ⟨rfl, rfl⟩

/-- `shrink_to_fit` never changes the size or the element values. -/
theorem shrink_obs {N : Nat} {h : Heap V} {v : Vec V} (hw : wfB N h v = true) :
    ((shrinkToFit N h v).2).size = v.size ∧
    elemsOf (shrinkToFit N h v).1 (shrinkToFit N h v).2 = elemsOf h v := by
  by_cases hs : v.isSmall
  · rw [shrink_noop_small hs]
    exact ⟨rfl, rfl⟩
  · replace hs : v.isSmall = false := by simpa using hs
    by_cases hcap : v.size < capOf N h v
    · obtain ⟨b, hb, _⟩ := wf_big hw hs
      by_cases hsN : v.size ≤ N
      · rw [shrink_demote hs hcap hsN hb]
        have h0 := copyToSmall_obs hw hs hb
        exact ⟨congrArg Obs.size h0, congrArg Obs.elems h0⟩
      · rw [shrink_unshare hs hcap hsN]
        have h0 := unshare_obs hw v.size
        exact ⟨congrArg Obs.size h0, congrArg Obs.elems h0⟩
    · rw [shrink_noop_full hcap]
      exact ⟨rfl, rfl⟩

/-- Exception injection for `insert`: the element type's copy constructor
throws on the `k`-th copy-construction (1-indexed) performed during the call.
Returns `some` of the heap and instance state observable after the exception
has propagated out of `insert` (including the destruction of the local `tmp`),
or `none` when the call performs fewer than `k` copies and completes normally.
In the growth/unshare branch the copies are: `diff` prefix copies, the copy of
`value`, `size() - diff` suffix copies (building `tmp`; a throw tears `tmp`
down and leaves the instance untouched), and then — after `*this = tmp` has
already committed — `size() + 1` further copies made by the `unshare`
triggered by `return begin() + diff` (a throw there frees only the newest
buffer, so the committed insertion remains). -/
def insertThrow (N : Nat) (h : Heap V) (v : Vec V) (pos k : Nat) (x : V) :
    Option (Heap V × Vec V) :=
  let diff := pos
  if v.size == capOf N h v || sharedBuf h v then
    let newCap := if v.size != capOf N h v then capOf N h v else capOf N h v * 2
    let tmpId := h.length
    let nd := (elemsOf h v).take diff ++ x :: (elemsOf h v).drop diff
    if k ≤ v.size + 1 then
      -- throw while building tmp: its partial contents are destroyed and the
      -- buffer freed by tmp's destructor; *this is untouched
      some (h ++ [none], v)
    else if k ≤ 2 * (v.size + 1) then
      -- tmp is fully built and adopted, then the unshare inside
      -- `return begin() + diff` throws: its fresh buffer is freed and the
      -- exception unwinds through tmp's destructor
      let h1 : Heap V := h ++ [some ⟨newCap, 1, nd⟩]
      let tmp : Vec V := ⟨v.size + 1, false, [], tmpId⟩
      let p := assign h1 v tmp
      let h3 : Heap V := p.1 ++ [none]
      let h4 := containerDestroy h3 tmp
      some (h4, p.2)
    else none
  else
    if k ≤ 1 then some (h, v) else none

/-! ## Claim theorems -/

/-- C2: the claim asserts the strong exception guarantee for (among others)
`insert` that triggers growth.  The code violates it: on a full small
`socow_vector<T,2>` holding `[10, 20]`, `insert(end(), 30)` first builds the
grown buffer (copies 1–3), commits it via `*this = tmp`, and then the
`return begin() + diff` unshares again because `tmp` still co-owns the buffer
(copies 4–6).  A copy constructor throwing on the 4th copy leaves the
container with the insertion already committed: size 3 and contents
`[10, 20, 30]` instead of the pre-call size 2, `[10, 20]`.  (A throw on
copy 3, still inside the `tmp` build, does roll back completely.) -/
theorem claim_C2 :
    insertThrow 2 ([] : Heap Nat) ⟨2, true, [10, 20], 0⟩ 2 4 30 =
      some ([some ⟨4, 1, [10, 20, 30]⟩, none], ⟨3, false, [10, 20], 0⟩) ∧
    obsOf 2 ([some ⟨4, 1, [10, 20, 30]⟩, none] : Heap Nat)
        ⟨3, false, [10, 20], 0⟩ ≠
      obsOf 2 ([] : Heap Nat) ⟨2, true, [10, 20], 0⟩ ∧
    insertThrow 2 ([] : Heap Nat) ⟨2, true, [10, 20], 0⟩ 2 3 30 =
      some ([none], ⟨2, true, [10, 20], 0⟩) ∧
    obsOf 2 ([none] : Heap Nat) ⟨2, true, [10, 20], 0⟩ =
      obsOf 2 ([] : Heap Nat) ⟨2, true, [10, 20], 0⟩ := by
  decide

/-- C9: `erase(pos, pos)` over an empty range leaves the observable state
(size, capacity, element values) unchanged and returns an iterator to `pos`.
(The `begin() + diff` evaluation may replace a shared buffer by a private one
of the same capacity, which is invisible in the observable state.) -/
theorem claim_C9 (N : Nat) (h : Heap V) (v : Vec V) (pos : Nat)
    (hw : wfB N h v = true) :
    obsOf N (eraseRange N h v pos pos).1 (eraseRange N h v pos pos).2.1 =
      obsOf N h v ∧
    (eraseRange N h v pos pos).2.2 = pos := by
  rw [erase_empty]
  refine ⟨?_, rfl⟩
  by_cases hsh : sharedBuf h v = true
  · rw [dataMut_shared hsh]
    exact unshare_obs hw (capOf N h v)
  · rw [dataMut_not_shared (by simpa using hsh)]

theorem claim_C9_witness :
    wfB 2 ([some ⟨3, 2, [7, 8]⟩] : Heap Nat) ⟨2, false, [], 0⟩ = true ∧
    (obsOf 2 (eraseRange 2 ([some ⟨3, 2, [7, 8]⟩] : Heap Nat) ⟨2, false, [], 0⟩ 1 1).1
        (eraseRange 2 ([some ⟨3, 2, [7, 8]⟩] : Heap Nat) ⟨2, false, [], 0⟩ 1 1).2.1 =
      obsOf 2 ([some ⟨3, 2, [7, 8]⟩] : Heap Nat) ⟨2, false, [], 0⟩ ∧
    (eraseRange 2 ([some ⟨3, 2, [7, 8]⟩] : Heap Nat) ⟨2, false, [], 0⟩ 1 1).2.2 = 1) :=
  ⟨by decide, claim_C9 2 ([some ⟨3, 2, [7, 8]⟩] : Heap Nat) ⟨2, false, [], 0⟩ 1
    (by decide)⟩

/-- C10: on a big instance whose buffer is not shared, `clear()` destroys the
elements in place but keeps the instance big, with the same buffer and the
same capacity, and sets the size to zero.  (`clear` is `noexcept`; in the
model it is a total function that performs no element copies.) -/
theorem claim_C10 (N : Nat) (h : Heap V) (v : Vec V) (b : Buffer V)
    (hw : wfB N h v = true) (hbig : v.isSmall = false)
    (hpriv : sharedBuf h v = false) (hb : hGet h v.bufId = some b) :
    ((clear h v).2).isSmall = false ∧
    ((clear h v).2).size = 0 ∧
    ((clear h v).2).bufId = v.bufId ∧
    capOf N (clear h v).1 (clear h v).2 = capOf N h v ∧
    hGet (clear h v).1 v.bufId = some { b with data := [] } := by
  have hcl := clear_private_big hpriv hbig hb
  have hget : hGet (hSet h v.bufId (some { b with data := [] })) v.bufId =
      some { b with data := [] } := hGet_hSet_self h _ (hGet_lt_length hb)
  have hsm : ((clear h v).2).isSmall = false := by rw [hcl]; exact hbig
  have hsz : ((clear h v).2).size = 0 := by rw [hcl]
  have hid : ((clear h v).2).bufId = v.bufId := by rw [hcl]
  have hg2 : hGet (clear h v).1 v.bufId = some { b with data := [] } := by
    rw [hcl]
    exact hget
  refine ⟨hsm, hsz, hid, ?_, hg2⟩
  rw [capOf_big hsm (hid ▸ hg2), capOf_big hbig hb]

theorem claim_C10_witness :
    wfB 2 ([some ⟨3, 1, [7, 8]⟩] : Heap Nat) ⟨2, false, [], 0⟩ = true ∧
    ((((clear ([some ⟨3, 1, [7, 8]⟩] : Heap Nat) ⟨2, false, [], 0⟩).2).isSmall = false) ∧
     (((clear ([some ⟨3, 1, [7, 8]⟩] : Heap Nat) ⟨2, false, [], 0⟩).2).size = 0) ∧
     (((clear ([some ⟨3, 1, [7, 8]⟩] : Heap Nat) ⟨2, false, [], 0⟩).2).bufId = 0) ∧
     (capOf 2 (clear ([some ⟨3, 1, [7, 8]⟩] : Heap Nat) ⟨2, false, [], 0⟩).1
        (clear ([some ⟨3, 1, [7, 8]⟩] : Heap Nat) ⟨2, false, [], 0⟩).2 =
      capOf 2 ([some ⟨3, 1, [7, 8]⟩] : Heap Nat) ⟨2, false, [], 0⟩) ∧
     (hGet (clear ([some ⟨3, 1, [7, 8]⟩] : Heap Nat) ⟨2, false, [], 0⟩).1 0 =
      some ⟨3, 1, []⟩)) :=
  ⟨by decide, claim_C10 2 ([some ⟨3, 1, [7, 8]⟩] : Heap Nat) ⟨2, false, [], 0⟩
    ⟨3, 1, [7, 8]⟩ (by decide) (by decide) (by decide) (by decide)⟩

/-- C5 counterexample: the claim says that on copy-assignment from a big
source the buffer's reference count is incremented.  When the two distinct
instances already share the very same buffer (reachable: `b = a; a = b;`),
the target first releases its reference and then re-retains it, so the count
is unchanged (2), not incremented (3). -/
theorem claim_C5_cex :
    wfB 2 ([some ⟨2, 2, [5, 7]⟩] : Heap Nat) ⟨2, false, [], 0⟩ = true ∧
    (⟨2, false, [], 0⟩ : Vec Nat).isSmall = false ∧
    hGet (assign ([some ⟨2, 2, [5, 7]⟩] : Heap Nat) ⟨2, false, [], 0⟩
      ⟨2, false, [], 0⟩).1 0 = some ⟨2, 2, [5, 7]⟩ ∧
    ¬ hGet (assign ([some ⟨2, 2, [5, 7]⟩] : Heap Nat) ⟨2, false, [], 0⟩
      ⟨2, false, [], 0⟩).1 0 = some ⟨2, 3, [5, 7]⟩ := by
  decide

/-- C5 (amended): after `a = b` the target's size and element values equal the
source's; when the source is big the target adopts the shared buffer with the
source's capacity and no element is copied, and the buffer's reference count
is incremented — unless the target already referenced that same buffer, in
which case it is released and re-retained, ending up unchanged. -/
theorem claim_C5 (N : Nat) (h : Heap V) (t s : Vec V) (b : Buffer V)
    (hwt : wfB N h t = true) (hws : wfB N h s = true) (hp : pairOK h t s = true)
    (hb : s.isSmall = false → hGet h s.bufId = some b) :
    ((assign h t s).2).size = s.size ∧
    elemsOf (assign h t s).1 (assign h t s).2 = elemsOf h s ∧
    (s.isSmall = false →
      ((assign h t s).2).isSmall = false ∧
      ((assign h t s).2).bufId = s.bufId ∧
      capOf N (assign h t s).1 (assign h t s).2 = capOf N h s ∧
      assignCopies h t s = 0 ∧
      (¬(t.isSmall = false ∧ t.bufId = s.bufId) →
        hGet (assign h t s).1 s.bufId = some { b with refCount := b.refCount + 1 }) ∧
      ((t.isSmall = false ∧ t.bufId = s.bufId) →
        hGet (assign h t s).1 s.bufId = some b)) := by
  have hobs := assign_obs hwt hws hp
  refine ⟨congrArg Obs.size hobs, congrArg Obs.elems hobs, ?_⟩
  intro hs
  have hbs := hb hs
  obtain ⟨bs2, hbs2, hlen, hle, hcap, hrc⟩ := wf_big hws hs
  have hbeq : bs2 = b := by
    rw [hbs] at hbs2
    exact (Option.some.inj hbs2).symm
  subst hbeq
  obtain ⟨b', hb', hc', hd', hr'⟩ := assign_adopt_get hs hbs hrc hp
  have hvec : (assign h t s).2 =
      { t with size := s.size, isSmall := false, bufId := s.bufId } := by
    rw [assign_adopt hs]
  refine ⟨by rw [hvec], by rw [hvec], ?_, by simp [assignCopies, hs], ?_, ?_⟩
  · have hsm : ((assign h t s).2).isSmall = false := by rw [hvec]
    have hid : ((assign h t s).2).bufId = s.bufId := by rw [hvec]
    rw [capOf_big hsm (hid ▸ hb'), capOf_big hs hbs, hc']
  · intro hna
    exact assign_adopt_get_noalias hs hbs hna
  · intro hali
    obtain ⟨c, hgc, h2c⟩ := pair_shared hp hali.1 hs hali.2
    rw [hali.2, hbs] at hgc
    exact assign_adopt_get_alias hs hali.1 hali.2 hbs
      (by rw [Option.some.inj hgc]; exact h2c)

theorem claim_C5_witness :
    wfB 1 ([some ⟨2, 1, [5, 6]⟩] : Heap Nat) ⟨0, true, [], 0⟩ = true ∧
    wfB 1 ([some ⟨2, 1, [5, 6]⟩] : Heap Nat) ⟨2, false, [], 0⟩ = true ∧
    pairOK ([some ⟨2, 1, [5, 6]⟩] : Heap Nat) ⟨0, true, [], 0⟩ ⟨2, false, [], 0⟩ = true ∧
    (((assign ([some ⟨2, 1, [5, 6]⟩] : Heap Nat) ⟨0, true, [], 0⟩
        ⟨2, false, [], 0⟩).2).size = 2 ∧
     elemsOf (assign ([some ⟨2, 1, [5, 6]⟩] : Heap Nat) ⟨0, true, [], 0⟩
        ⟨2, false, [], 0⟩).1
       (assign ([some ⟨2, 1, [5, 6]⟩] : Heap Nat) ⟨0, true, [], 0⟩
        ⟨2, false, [], 0⟩).2 =
       elemsOf ([some ⟨2, 1, [5, 6]⟩] : Heap Nat) ⟨2, false, [], 0⟩ ∧
     ((⟨2, false, [], 0⟩ : Vec Nat).isSmall = false →
      ((assign ([some ⟨2, 1, [5, 6]⟩] : Heap Nat) ⟨0, true, [], 0⟩
          ⟨2, false, [], 0⟩).2).isSmall = false ∧
      ((assign ([some ⟨2, 1, [5, 6]⟩] : Heap Nat) ⟨0, true, [], 0⟩
          ⟨2, false, [], 0⟩).2).bufId = 0 ∧
      capOf 1 (assign ([some ⟨2, 1, [5, 6]⟩] : Heap Nat) ⟨0, true, [], 0⟩
          ⟨2, false, [], 0⟩).1
        (assign ([some ⟨2, 1, [5, 6]⟩] : Heap Nat) ⟨0, true, [], 0⟩
          ⟨2, false, [], 0⟩).2 =
        capOf 1 ([some ⟨2, 1, [5, 6]⟩] : Heap Nat) ⟨2, false, [], 0⟩ ∧
      assignCopies ([some ⟨2, 1, [5, 6]⟩] : Heap Nat) ⟨0, true, [], 0⟩
        ⟨2, false, [], 0⟩ = 0 ∧
      (¬((⟨0, true, [], 0⟩ : Vec Nat).isSmall = false ∧
          (⟨0, true, [], 0⟩ : Vec Nat).bufId = (⟨2, false, [], 0⟩ : Vec Nat).bufId) →
        hGet (assign ([some ⟨2, 1, [5, 6]⟩] : Heap Nat) ⟨0, true, [], 0⟩
          ⟨2, false, [], 0⟩).1 0 = some ⟨2, 2, [5, 6]⟩) ∧
      (((⟨0, true, [], 0⟩ : Vec Nat).isSmall = false ∧
          (⟨0, true, [], 0⟩ : Vec Nat).bufId = (⟨2, false, [], 0⟩ : Vec Nat).bufId) →
        hGet (assign ([some ⟨2, 1, [5, 6]⟩] : Heap Nat) ⟨0, true, [], 0⟩
          ⟨2, false, [], 0⟩).1 0 = some ⟨2, 1, [5, 6]⟩))) :=
  ⟨by decide, by decide, by decide,
   claim_C5 1 ([some ⟨2, 1, [5, 6]⟩] : Heap Nat) ⟨0, true, [], 0⟩ ⟨2, false, [], 0⟩
     ⟨2, 1, [5, 6]⟩ (by decide) (by decide) (by decide) (fun _ => by decide)⟩

/-- C6: `reserve(c)` is a no-op when `c ≤ size()`; when `c > size()`, a shared
buffer that fits small is demoted to inline storage (capacity `N`), otherwise
a shared buffer or insufficient capacity leads to a fresh private buffer of
capacity exactly `c`; the size and the element values are unchanged in every
case. -/
theorem claim_C6 (N : Nat) (h : Heap V) (v : Vec V) (c : Nat)
    (hw : wfB N h v = true) :
    (c ≤ v.size → reserve N h v c = (h, v)) ∧
    (v.size < c → sharedBuf h v = true → c ≤ N →
      ((reserve N h v c).2).isSmall = true ∧
      capOf N (reserve N h v c).1 (reserve N h v c).2 = N) ∧
    (v.size < c → ¬(sharedBuf h v = true ∧ c ≤ N) →
      (sharedBuf h v = true ∨ capOf N h v < c) →
      ((reserve N h v c).2).isSmall = false ∧
      capOf N (reserve N h v c).1 (reserve N h v c).2 = c ∧
      hGet (reserve N h v c).1 ((reserve N h v c).2).bufId =
        some ⟨c, 1, elemsOf h v⟩) ∧
    ((reserve N h v c).2).size = v.size ∧
    elemsOf (reserve N h v c).1 (reserve N h v c).2 = elemsOf h v := by
  obtain ⟨hsz, hel⟩ := reserve_obs c hw
  refine ⟨?_, ?_, ?_, hsz, hel⟩
  · intro hc
    exact reserve_noop (by omega)
  · intro hc hsh hcN
    have hs := sharedBuf_big hsh
    obtain ⟨b, hb, _⟩ := wf_big hw hs
    rw [reserve_demote hc hsh hcN hb]
    exact ⟨rfl, capOf_small rfl⟩
  · intro hc hnot hcond
    rw [reserve_unshare hc hcond hnot]
    exact ⟨rfl, congrArg Obs.cap (unshare_obs hw c), unshare_get_new hw c⟩

theorem claim_C6_witness :
    wfB 2 ([] : Heap Nat) ⟨1, true, [4], 0⟩ = true ∧
    ((5 ≤ 1 → reserve 2 ([] : Heap Nat) ⟨1, true, [4], 0⟩ 5 = ([], ⟨1, true, [4], 0⟩)) ∧
     (1 < 5 → sharedBuf ([] : Heap Nat) ⟨1, true, [4], 0⟩ = true → 5 ≤ 2 →
       ((reserve 2 ([] : Heap Nat) ⟨1, true, [4], 0⟩ 5).2).isSmall = true ∧
       capOf 2 (reserve 2 ([] : Heap Nat) ⟨1, true, [4], 0⟩ 5).1
         (reserve 2 ([] : Heap Nat) ⟨1, true, [4], 0⟩ 5).2 = 2) ∧
     (1 < 5 → ¬(sharedBuf ([] : Heap Nat) ⟨1, true, [4], 0⟩ = true ∧ 5 ≤ 2) →
       (sharedBuf ([] : Heap Nat) ⟨1, true, [4], 0⟩ = true ∨
         capOf 2 ([] : Heap Nat) ⟨1, true, [4], 0⟩ < 5) →
       ((reserve 2 ([] : Heap Nat) ⟨1, true, [4], 0⟩ 5).2).isSmall = false ∧
       capOf 2 (reserve 2 ([] : Heap Nat) ⟨1, true, [4], 0⟩ 5).1
         (reserve 2 ([] : Heap Nat) ⟨1, true, [4], 0⟩ 5).2 = 5 ∧
       hGet (reserve 2 ([] : Heap Nat) ⟨1, true, [4], 0⟩ 5).1
         ((reserve 2 ([] : Heap Nat) ⟨1, true, [4], 0⟩ 5).2).bufId =
         some ⟨5, 1, elemsOf ([] : Heap Nat) ⟨1, true, [4], 0⟩⟩) ∧
     ((reserve 2 ([] : Heap Nat) ⟨1, true, [4], 0⟩ 5).2).size = 1 ∧
     elemsOf (reserve 2 ([] : Heap Nat) ⟨1, true, [4], 0⟩ 5).1
       (reserve 2 ([] : Heap Nat) ⟨1, true, [4], 0⟩ 5).2 =
       elemsOf ([] : Heap Nat) ⟨1, true, [4], 0⟩) :=
  ⟨by decide, claim_C6 2 ([] : Heap Nat) ⟨1, true, [4], 0⟩ 5 (by decide)⟩

/-- C3 counterexample: the claim says every mutator on a shared instance
whose resulting size fits in `N` demotes to small (inline) storage.  `insert`
on a shared instance of size 1 with `N = 3` yields size 2 ≤ N, yet the result
is big — the replacement is built by the private buffer constructor, which
"doesn't create small object even if capacity <= SMALL_SIZE". -/
theorem claim_C3_cex :
    sharedBuf ([some ⟨4, 2, [5]⟩] : Heap Nat) ⟨1, false, [], 0⟩ = true ∧
    wfB 3 ([some ⟨4, 2, [5]⟩] : Heap Nat) ⟨1, false, [], 0⟩ = true ∧
    ((insert 3 ([some ⟨4, 2, [5]⟩] : Heap Nat) ⟨1, false, [], 0⟩ 1 7).2.1).size ≤ 3 ∧
    ((insert 3 ([some ⟨4, 2, [5]⟩] : Heap Nat) ⟨1, false, [], 0⟩ 1 7).2.1).isSmall
      = false := by
  decide

/-- C3 (amended): `reserve` (and `shrink_to_fit`/`clear`) demote a shared
instance whose contents fit in `N`; but `insert` and `erase` on a shared
instance always unshare to a fresh private heap buffer, even when the result
would fit inline; a mutator on a non-shared instance with room mutates in
place (same storage, no allocation). -/
theorem claim_C3 (N : Nat) (h : Heap V) (v : Vec V) (b : Buffer V)
    (pos left right c : Nat) (x : V) (hw : wfB N h v = true)
    (hpos : pos ≤ v.size) (hlr : left < right) (hr : right ≤ v.size)
    (hb : v.isSmall = false → hGet h v.bufId = some b) :
    (sharedBuf h v = true →
      ((insert N h v pos x).2.1).isSmall = false ∧
      hGet (insert N h v pos x).1 ((insert N h v pos x).2.1).bufId =
        some ⟨if v.size != capOf N h v then capOf N h v else capOf N h v * 2, 1,
          (elemsOf h v).take pos ++ x :: (elemsOf h v).drop pos⟩) ∧
    (sharedBuf h v = true →
      ((eraseRange N h v left right).2.1).isSmall = false ∧
      hGet (eraseRange N h v left right).1
          ((eraseRange N h v left right).2.1).bufId =
        some ⟨b.cap, 1,
          b.data.take left ++ (b.data.drop right).take (v.size - right)⟩) ∧
    (sharedBuf h v = true → v.size < c → c ≤ N →
      ((reserve N h v c).2).isSmall = true) ∧
    (sharedBuf h v = false → v.size < capOf N h v →
      (insert N h v pos x).1.length = h.length ∧
      ((insert N h v pos x).2.1).isSmall = v.isSmall ∧
      ((insert N h v pos x).2.1).bufId = v.bufId) ∧
    (sharedBuf h v = false →
      (eraseRange N h v left right).1.length = h.length ∧
      ((eraseRange N h v left right).2.1).isSmall = v.isSmall ∧
      ((eraseRange N h v left right).2.1).bufId = v.bufId) := by
  refine ⟨?_, ?_, ?_, ?_, ?_⟩
  · intro hsh
    have hgrow : (v.size == capOf N h v || sharedBuf h v) = true := by
      rw [hsh]
      simp
    rw [insert_growth hw hpos hgrow]
    refine ⟨rfl, ?_⟩
    have h0 := hGet_append_right (containerDestroy h v)
      [none, some ⟨if v.size != capOf N h v then capOf N h v
        else capOf N h v * 2, 1,
        (elemsOf h v).take pos ++ x :: (elemsOf h v).drop pos⟩] 1
    rw [containerDestroy_length] at h0
    exact h0
  · intro hsh
    have hbv := hb (sharedBuf_big hsh)
    rw [erase_shared hbv hsh hlr hr]
    refine ⟨rfl, ?_⟩
    have h0 : (hSet h v.bufId
        (some { b with refCount := b.refCount - 1 })).length = h.length :=
      hSet_length h _ _
    rw [← h0]
    exact hGet_append_self _ _ []
  · intro hsh hc hcN
    have hs := sharedBuf_big hsh
    obtain ⟨b2, hb2, _⟩ := wf_big hw hs
    rw [reserve_demote hc hsh hcN hb2]
    rfl
  · intro hsh hlt
    have hng : (v.size == capOf N h v || sharedBuf h v) = false := by
      rw [hsh]
      simp
      omega
    by_cases hs : v.isSmall
    · rw [insert_inplace_small hng hs]
      exact ⟨rfl, rfl, rfl⟩
    · replace hs : v.isSmall = false := by simpa using hs
      obtain ⟨b2, hb2, _⟩ := wf_big hw hs
      rw [insert_inplace_big hng hs hb2]
      exact ⟨hSet_length h _ _, rfl, rfl⟩
  · intro hsh
    by_cases hs : v.isSmall
    · rw [erase_inplace_small (by omega) hsh hs]
      exact ⟨rfl, rfl, rfl⟩
    · replace hs : v.isSmall = false := by simpa using hs
      obtain ⟨b2, hb2, _⟩ := wf_big hw hs
      rw [erase_inplace_big (by omega) hsh hs hb2]
      exact ⟨hSet_length h _ _, rfl, rfl⟩

theorem claim_C3_witness :
    wfB 3 ([some ⟨4, 2, [5, 6]⟩] : Heap Nat) ⟨2, false, [], 0⟩ = true ∧
    0 ≤ 2 ∧ (0 : Nat) < 1 ∧ 1 ≤ 2 ∧
    ((sharedBuf ([some ⟨4, 2, [5, 6]⟩] : Heap Nat) ⟨2, false, [], 0⟩ = true →
      ((insert 3 ([some ⟨4, 2, [5, 6]⟩] : Heap Nat) ⟨2, false, [], 0⟩ 0 9).2.1).isSmall
        = false ∧
      hGet (insert 3 ([some ⟨4, 2, [5, 6]⟩] : Heap Nat) ⟨2, false, [], 0⟩ 0 9).1
          ((insert 3 ([some ⟨4, 2, [5, 6]⟩] : Heap Nat) ⟨2, false, [], 0⟩ 0 9).2.1).bufId =
        some ⟨if (2 : Nat) != capOf 3 ([some ⟨4, 2, [5, 6]⟩] : Heap Nat) ⟨2, false, [], 0⟩
              then capOf 3 ([some ⟨4, 2, [5, 6]⟩] : Heap Nat) ⟨2, false, [], 0⟩
              else capOf 3 ([some ⟨4, 2, [5, 6]⟩] : Heap Nat) ⟨2, false, [], 0⟩ * 2, 1,
          (elemsOf ([some ⟨4, 2, [5, 6]⟩] : Heap Nat) ⟨2, false, [], 0⟩).take 0 ++
            9 :: (elemsOf ([some ⟨4, 2, [5, 6]⟩] : Heap Nat) ⟨2, false, [], 0⟩).drop 0⟩) ∧
     (sharedBuf ([some ⟨4, 2, [5, 6]⟩] : Heap Nat) ⟨2, false, [], 0⟩ = true →
      ((eraseRange 3 ([some ⟨4, 2, [5, 6]⟩] : Heap Nat) ⟨2, false, [], 0⟩ 0 1).2.1).isSmall
        = false ∧
      hGet (eraseRange 3 ([some ⟨4, 2, [5, 6]⟩] : Heap Nat) ⟨2, false, [], 0⟩ 0 1).1
          ((eraseRange 3 ([some ⟨4, 2, [5, 6]⟩] : Heap Nat) ⟨2, false, [], 0⟩ 0 1).2.1).bufId =
        some ⟨4, 1, ([5, 6] : List Nat).take 0 ++ (([5, 6] : List Nat).drop 1).take 1⟩) ∧
     (sharedBuf ([some ⟨4, 2, [5, 6]⟩] : Heap Nat) ⟨2, false, [], 0⟩ = true →
      2 < 3 → 3 ≤ 3 →
      ((reserve 3 ([some ⟨4, 2, [5, 6]⟩] : Heap Nat) ⟨2, false, [], 0⟩ 3).2).isSmall
        = true) ∧
     (sharedBuf ([some ⟨4, 2, [5, 6]⟩] : Heap Nat) ⟨2, false, [], 0⟩ = false →
      2 < capOf 3 ([some ⟨4, 2, [5, 6]⟩] : Heap Nat) ⟨2, false, [], 0⟩ →
      (insert 3 ([some ⟨4, 2, [5, 6]⟩] : Heap Nat) ⟨2, false, [], 0⟩ 0 9).1.length = 1 ∧
      ((insert 3 ([some ⟨4, 2, [5, 6]⟩] : Heap Nat) ⟨2, false, [], 0⟩ 0 9).2.1).isSmall
        = false ∧
      ((insert 3 ([some ⟨4, 2, [5, 6]⟩] : Heap Nat) ⟨2, false, [], 0⟩ 0 9).2.1).bufId = 0) ∧
     (sharedBuf ([some ⟨4, 2, [5, 6]⟩] : Heap Nat) ⟨2, false, [], 0⟩ = false →
      (eraseRange 3 ([some ⟨4, 2, [5, 6]⟩] : Heap Nat) ⟨2, false, [], 0⟩ 0 1).1.length = 1 ∧
      ((eraseRange 3 ([some ⟨4, 2, [5, 6]⟩] : Heap Nat) ⟨2, false, [], 0⟩ 0 1).2.1).isSmall
        = false ∧
      ((eraseRange 3 ([some ⟨4, 2, [5, 6]⟩] : Heap Nat) ⟨2, false, [], 0⟩ 0 1).2.1).bufId
        = 0)) :=
  ⟨by decide, by decide, by decide, by decide,
   claim_C3 3 ([some ⟨4, 2, [5, 6]⟩] : Heap Nat) ⟨2, false, [], 0⟩ ⟨4, 2, [5, 6]⟩
     0 0 1 3 9 (by decide) (by decide) (by decide) (by decide) (fun _ => by decide)⟩

/-- C8: `a.swap(b); a.swap(b);` restores both instances' observable states
(size, element values, capacity). -/
theorem claim_C8 (N : Nat) (h : Heap V) (a b : Vec V)
    (hwa : wfB N h a = true) (hwb : wfB N h b = true)
    (hp : pairOK h a b = true) :
    obsOf N (swapV (swapV h a b).1 (swapV h a b).2.1 (swapV h a b).2.2).1
        (swapV (swapV h a b).1 (swapV h a b).2.1 (swapV h a b).2.2).2.1 =
      obsOf N h a ∧
    obsOf N (swapV (swapV h a b).1 (swapV h a b).2.1 (swapV h a b).2.2).1
        (swapV (swapV h a b).1 (swapV h a b).2.1 (swapV h a b).2.2).2.2 =
      obsOf N h b := by
  obtain ⟨e1, e2, w1, w2, pp⟩ := swapV_exchange hwa hwb hp
  obtain ⟨f1, f2, _, _, _⟩ := swapV_exchange w1 w2 pp
  exact ⟨f1.trans e2, f2.trans e1⟩

theorem claim_C8_witness :
    wfB 1 ([some ⟨2, 1, [5, 6]⟩] : Heap Nat) ⟨2, false, [], 0⟩ = true ∧
    wfB 1 ([some ⟨2, 1, [5, 6]⟩] : Heap Nat) ⟨1, true, [9], 0⟩ = true ∧
    pairOK ([some ⟨2, 1, [5, 6]⟩] : Heap Nat) ⟨2, false, [], 0⟩ ⟨1, true, [9], 0⟩
      = true ∧
    (obsOf 1 (swapV (swapV ([some ⟨2, 1, [5, 6]⟩] : Heap Nat) ⟨2, false, [], 0⟩
          ⟨1, true, [9], 0⟩).1
        (swapV ([some ⟨2, 1, [5, 6]⟩] : Heap Nat) ⟨2, false, [], 0⟩
          ⟨1, true, [9], 0⟩).2.1
        (swapV ([some ⟨2, 1, [5, 6]⟩] : Heap Nat) ⟨2, false, [], 0⟩
          ⟨1, true, [9], 0⟩).2.2).1
        (swapV (swapV ([some ⟨2, 1, [5, 6]⟩] : Heap Nat) ⟨2, false, [], 0⟩
          ⟨1, true, [9], 0⟩).1
        (swapV ([some ⟨2, 1, [5, 6]⟩] : Heap Nat) ⟨2, false, [], 0⟩
          ⟨1, true, [9], 0⟩).2.1
        (swapV ([some ⟨2, 1, [5, 6]⟩] : Heap Nat) ⟨2, false, [], 0⟩
          ⟨1, true, [9], 0⟩).2.2).2.1 =
      obsOf 1 ([some ⟨2, 1, [5, 6]⟩] : Heap Nat) ⟨2, false, [], 0⟩ ∧
    obsOf 1 (swapV (swapV ([some ⟨2, 1, [5, 6]⟩] : Heap Nat) ⟨2, false, [], 0⟩
          ⟨1, true, [9], 0⟩).1
        (swapV ([some ⟨2, 1, [5, 6]⟩] : Heap Nat) ⟨2, false, [], 0⟩
          ⟨1, true, [9], 0⟩).2.1
        (swapV ([some ⟨2, 1, [5, 6]⟩] : Heap Nat) ⟨2, false, [], 0⟩
          ⟨1, true, [9], 0⟩).2.2).1
        (swapV (swapV ([some ⟨2, 1, [5, 6]⟩] : Heap Nat) ⟨2, false, [], 0⟩
          ⟨1, true, [9], 0⟩).1
        (swapV ([some ⟨2, 1, [5, 6]⟩] : Heap Nat) ⟨2, false, [], 0⟩
          ⟨1, true, [9], 0⟩).2.1
        (swapV ([some ⟨2, 1, [5, 6]⟩] : Heap Nat) ⟨2, false, [], 0⟩
          ⟨1, true, [9], 0⟩).2.2).2.2 =
      obsOf 1 ([some ⟨2, 1, [5, 6]⟩] : Heap Nat) ⟨1, true, [9], 0⟩) :=
  ⟨by decide, by decide, by decide,
   claim_C8 1 ([some ⟨2, 1, [5, 6]⟩] : Heap Nat) ⟨2, false, [], 0⟩
     ⟨1, true, [9], 0⟩ (by decide) (by decide) (by decide)⟩

/-- C7: for `c > size()`, `reserve(c)` followed by `shrink_to_fit()` leaves
the contents unchanged and returns the capacity to the minimal
representation: small storage (capacity `N`) when `size() ≤ N`, otherwise a
big buffer of capacity exactly `size()`. -/
theorem claim_C7 (N : Nat) (h : Heap V) (v : Vec V) (c : Nat)
    (hw : wfB N h v = true) (hc : v.size < c) :
    ((shrinkToFit N (reserve N h v c).1 (reserve N h v c).2).2).size = v.size ∧
    elemsOf (shrinkToFit N (reserve N h v c).1 (reserve N h v c).2).1
      (shrinkToFit N (reserve N h v c).1 (reserve N h v c).2).2 = elemsOf h v ∧
    (v.size ≤ N →
      ((shrinkToFit N (reserve N h v c).1 (reserve N h v c).2).2).isSmall = true ∧
      capOf N (shrinkToFit N (reserve N h v c).1 (reserve N h v c).2).1
        (shrinkToFit N (reserve N h v c).1 (reserve N h v c).2).2 = N) ∧
    (N < v.size →
      ((shrinkToFit N (reserve N h v c).1 (reserve N h v c).2).2).isSmall = false ∧
      capOf N (shrinkToFit N (reserve N h v c).1 (reserve N h v c).2).1
        (shrinkToFit N (reserve N h v c).1 (reserve N h v c).2).2 = v.size) := by
  have hw1 := reserve_wf c hw
  obtain ⟨hsz1, hel1⟩ := reserve_obs c hw
  obtain ⟨hsz2, hel2⟩ := shrink_obs hw1
  refine ⟨by rw [hsz2, hsz1], by rw [hel2, hel1], ?_, ?_⟩
  -- mode and capacity: analyze the state after reserve
  all_goals
    have hkey : ((reserve N h v c).2).isSmall = true ∨
        (((reserve N h v c).2).isSmall = false ∧
         ((reserve N h v c).2).size < capOf N (reserve N h v c).1 (reserve N h v c).2) := by
      by_cases hsh : sharedBuf h v = true
      · by_cases hcN : c ≤ N
        · have hs := sharedBuf_big hsh
          obtain ⟨b, hb, _⟩ := wf_big hw hs
          rw [reserve_demote hc hsh hcN hb]
          exact Or.inl rfl
        · rw [reserve_unshare hc (Or.inl hsh) (fun hx => hcN hx.2)]
          refine Or.inr ⟨rfl, ?_⟩
          have h0 := congrArg Obs.cap (unshare_obs hw c)
          have h1 : ((unshare h v c).2).size = v.size := rfl
          rw [h1]
          rw [show capOf N (unshare h v c).1 (unshare h v c).2 = c from h0]
          omega
      · replace hsh : sharedBuf h v = false := by simpa using hsh
        by_cases hcap : capOf N h v < c
        · rw [reserve_unshare hc (Or.inr hcap)
            (fun hx => by rw [hsh] at hx; simp at hx)]
          refine Or.inr ⟨rfl, ?_⟩
          have h0 := congrArg Obs.cap (unshare_obs hw c)
          have h1 : ((unshare h v c).2).size = v.size := rfl
          rw [h1]
          rw [show capOf N (unshare h v c).1 (unshare h v c).2 = c from h0]
          omega
        · rw [reserve_keep hc hsh hcap]
          by_cases hs : v.isSmall
          · exact Or.inl hs
          · replace hs : v.isSmall = false := by simpa using hs
            refine Or.inr ⟨hs, ?_⟩
            show v.size < capOf N h v
            omega
  · -- size fits small
    intro hsN
    rcases hkey with hsm | ⟨hbg, hlt⟩
    · rw [shrink_noop_small hsm]
      exact ⟨hsm, capOf_small hsm⟩
    · obtain ⟨b1, hb1, _⟩ := wf_big hw1 hbg
      have hsN1 : ((reserve N h v c).2).size ≤ N := by rw [hsz1]; exact hsN
      rw [shrink_demote hbg hlt hsN1 hb1]
      exact ⟨rfl, capOf_small rfl⟩
  · -- size does not fit small
    intro hNs
    rcases hkey with hsm | ⟨hbg, hlt⟩
    · -- impossible: a small well-formed instance has size ≤ N
      have := (wf_small hw1 hsm).2
      rw [hsz1] at this
      omega
    · have hsN1 : ¬ ((reserve N h v c).2).size ≤ N := by rw [hsz1]; omega
      rw [shrink_unshare hbg hlt hsN1]
      refine ⟨rfl, ?_⟩
      have h0 := congrArg Obs.cap
        (unshare_obs hw1 ((reserve N h v c).2).size)
      rw [show capOf N (unshare (reserve N h v c).1 (reserve N h v c).2
        ((reserve N h v c).2).size).1
        (unshare (reserve N h v c).1 (reserve N h v c).2
          ((reserve N h v c).2).size).2 = ((reserve N h v c).2).size from h0]
      exact hsz1

theorem claim_C7_witness :
    wfB 1 ([] : Heap Nat) ⟨1, true, [4], 0⟩ = true ∧ 1 < 6 ∧
    (((shrinkToFit 1 (reserve 1 ([] : Heap Nat) ⟨1, true, [4], 0⟩ 6).1
        (reserve 1 ([] : Heap Nat) ⟨1, true, [4], 0⟩ 6).2).2).size = 1 ∧
     elemsOf (shrinkToFit 1 (reserve 1 ([] : Heap Nat) ⟨1, true, [4], 0⟩ 6).1
        (reserve 1 ([] : Heap Nat) ⟨1, true, [4], 0⟩ 6).2).1
       (shrinkToFit 1 (reserve 1 ([] : Heap Nat) ⟨1, true, [4], 0⟩ 6).1
        (reserve 1 ([] : Heap Nat) ⟨1, true, [4], 0⟩ 6).2).2 =
       elemsOf ([] : Heap Nat) ⟨1, true, [4], 0⟩ ∧
     ((1 : Nat) ≤ 1 →
      ((shrinkToFit 1 (reserve 1 ([] : Heap Nat) ⟨1, true, [4], 0⟩ 6).1
         (reserve 1 ([] : Heap Nat) ⟨1, true, [4], 0⟩ 6).2).2).isSmall = true ∧
      capOf 1 (shrinkToFit 1 (reserve 1 ([] : Heap Nat) ⟨1, true, [4], 0⟩ 6).1
         (reserve 1 ([] : Heap Nat) ⟨1, true, [4], 0⟩ 6).2).1
        (shrinkToFit 1 (reserve 1 ([] : Heap Nat) ⟨1, true, [4], 0⟩ 6).1
         (reserve 1 ([] : Heap Nat) ⟨1, true, [4], 0⟩ 6).2).2 = 1) ∧
     (1 < (1 : Nat) →
      ((shrinkToFit 1 (reserve 1 ([] : Heap Nat) ⟨1, true, [4], 0⟩ 6).1
         (reserve 1 ([] : Heap Nat) ⟨1, true, [4], 0⟩ 6).2).2).isSmall = false ∧
      capOf 1 (shrinkToFit 1 (reserve 1 ([] : Heap Nat) ⟨1, true, [4], 0⟩ 6).1
         (reserve 1 ([] : Heap Nat) ⟨1, true, [4], 0⟩ 6).2).1
        (shrinkToFit 1 (reserve 1 ([] : Heap Nat) ⟨1, true, [4], 0⟩ 6).1
         (reserve 1 ([] : Heap Nat) ⟨1, true, [4], 0⟩ 6).2).2 = 1)) :=
  ⟨by decide, by decide,
   claim_C7 1 ([] : Heap Nat) ⟨1, true, [4], 0⟩ 6 (by decide) (by decide)⟩

/-- C1: after copy-assigning a big instance `a` into a target (copy
construction does exactly this on a default-constructed target), the copy
shares `a`'s buffer; every listed mutation of the copy leaves the observable
state of `a` — its size, capacity and element values — unchanged. -/
theorem claim_C1 (N : Nat) (h : Heap V) (a t : Vec V) (x : V)
    (pos c left right : Nat)
    (hwa : wfB N h a = true) (hbig : a.isSmall = false) (hNsz : N < a.size)
    (hwt : wfB N h t = true) (hpt : pairOK h t a = true)
    (hpos : pos ≤ a.size) (hlr : left ≤ right) (hr : right ≤ a.size) :
    obsOf N (pushBack N (assign h t a).1 (assign h t a).2 x).1 a = obsOf N h a ∧
    obsOf N (popBack N (assign h t a).1 (assign h t a).2).1 a = obsOf N h a ∧
    obsOf N (insert N (assign h t a).1 (assign h t a).2 pos x).1 a
      = obsOf N h a ∧
    obsOf N (eraseRange N (assign h t a).1 (assign h t a).2 left right).1 a
      = obsOf N h a ∧
    obsOf N (clear (assign h t a).1 (assign h t a).2).1 a = obsOf N h a ∧
    obsOf N (reserve N (assign h t a).1 (assign h t a).2 c).1 a = obsOf N h a ∧
    obsOf N (shrinkToFit N (assign h t a).1 (assign h t a).2).1 a
      = obsOf N h a := by
  obtain ⟨ba, hga, hlena, hlea, hcapa, hrca⟩ := wf_big hwa hbig
  set h1 : Heap V := (assign h t a).1 with hh1
  set bv : Vec V := (assign h t a).2 with hbv
  obtain ⟨b', hb', hc', hd', hr'⟩ := assign_adopt_get hbig hga hrca hpt
  have hvec : bv = { t with size := a.size, isSmall := false, bufId := a.bufId } := by
    rw [hbv, assign_adopt hbig]
  have hbvid : bv.bufId = a.bufId := by rw [hvec]
  have hsmbv : bv.isSmall = false := by rw [hvec]
  have hszbv : bv.size = a.size := by rw [hvec]
  have hgbv : hGet h1 bv.bufId = some b' := by rw [hbvid]; exact hb'
  have hwa1 : wfB N h1 a :=
    wf_big_intro hbig hb' (hd' ▸ hlena) (hc' ▸ hlea) (hc' ▸ hcapa) (by omega)
  have hwb1 : wfB N h1 bv := assign_wf hwt hwa hpt
  have hKeeps0 : keeps h h1 a.bufId := by
    rw [hh1]
    refine assign_keeps a.bufId (fun htb hid cc hcc => ?_)
    obtain ⟨cs, hgcs, h2cs⟩ := pair_shared hpt htb hbig hid
    rw [hid, hcc] at hgcs
    rw [Option.some.inj hgcs]
    exact h2cs
  have hobs1 : obsOf N h1 a = obsOf N h a := obs_keeps hwa (fun _ => hKeeps0)
  have hshb : sharedBuf h1 bv = true := by
    rw [sharedBuf_iff hsmbv hgbv]
    simp
    omega
  -- the frame conditions for each heap effect of a mutation of the copy
  have hKrel : keeps h1 (releaseRef h1 bv.bufId) a.bufId := by
    rw [hbvid]
    exact keeps_releaseRef_shared hb' hr' a.bufId
  have hKun : ∀ cc, keeps h1 (unshare h1 bv cc).1 a.bufId := by
    intro cc
    refine unshare_keeps hwb1 cc a.bufId (fun _ _ cβ hcβ => ?_)
    rw [hgbv] at hcβ
    rw [← Option.some.inj hcβ]
    exact hr'
  have hKset : keeps h1
      (hSet h1 bv.bufId (some { b' with refCount := b'.refCount - 1 })) a.bufId := by
    rw [hbvid]
    exact keeps_hSet_weaken hb' rfl rfl
  -- insert (hence push_back) on the shared copy: growth path
  have hKins : ∀ pp : Nat, pp ≤ a.size →
      keeps h1 (insert N h1 bv pp x).1 a.bufId := by
    intro pp hpp
    have hgrow : (bv.size == capOf N h1 bv || sharedBuf h1 bv) = true := by
      rw [hshb]
      simp
    rw [insert_growth hwb1 (by omega) hgrow]
    refine keeps_trans ?_ (keeps_append _ _ _)
    rw [containerDestroy_big hsmbv]
    exact hKrel
  -- erase on the shared copy
  have hKer : ∀ l r : Nat, l ≤ r → r ≤ a.size →
      keeps h1 (eraseRange N h1 bv l r).1 a.bufId := by
    intro l r hlr2 hr2
    by_cases heq : l = r
    · subst heq
      rw [erase_empty]
      rw [dataMut_shared hshb]
      exact hKun _
    · rw [erase_shared hgbv hshb (by omega) (by omega)]
      exact keeps_trans hKset (keeps_append _ _ _)
  refine ⟨?_, ?_, ?_, ?_, ?_, ?_, ?_⟩
  · -- push_back
    show obsOf N (insert N h1 bv bv.size x).1 a = obsOf N h a
    exact (obs_keeps hwa1 (fun _ => hKins bv.size (by omega))).trans hobs1
  · -- pop_back
    show obsOf N (eraseRange N h1 bv (bv.size - 1) bv.size).1 a = obsOf N h a
    exact (obs_keeps hwa1
      (fun _ => hKer (bv.size - 1) bv.size (by omega) (by omega))).trans hobs1
  · -- insert
    exact (obs_keeps hwa1 (fun _ => hKins pos hpos)).trans hobs1
  · -- erase
    exact (obs_keeps hwa1 (fun _ => hKer left right hlr hr)).trans hobs1
  · -- clear
    rw [clear_shared hshb]
    exact (obs_keeps hwa1 (fun _ => hKrel)).trans hobs1
  · -- reserve
    have hK : keeps h1 (reserve N h1 bv c).1 a.bufId := by
      by_cases hcc : bv.size < c
      · by_cases hcN : c ≤ N
        · rw [reserve_demote hcc hshb hcN hgbv]
          exact hKrel
        · rw [reserve_unshare hcc (Or.inl hshb) (fun hy => hcN hy.2)]
          exact hKun c
      · rw [reserve_noop hcc]
        exact keeps_refl h1 a.bufId
    exact (obs_keeps hwa1 (fun _ => hK)).trans hobs1
  · -- shrink_to_fit
    have hK : keeps h1 (shrinkToFit N h1 bv).1 a.bufId := by
      by_cases hcc : bv.size < capOf N h1 bv
      · by_cases hsN : bv.size ≤ N
        · rw [shrink_demote hsmbv hcc hsN hgbv]
          exact hKrel
        · rw [shrink_unshare hsmbv hcc hsN]
          exact hKun bv.size
      · rw [shrink_noop_full hcc]
        exact keeps_refl h1 a.bufId
    exact (obs_keeps hwa1 (fun _ => hK)).trans hobs1

theorem claim_C1_witness :
    wfB 1 ([some ⟨2, 1, [5, 6]⟩] : Heap Nat) ⟨2, false, [], 0⟩ = true ∧
    (⟨2, false, [], 0⟩ : Vec Nat).isSmall = false ∧ 1 < 2 ∧
    wfB 1 ([some ⟨2, 1, [5, 6]⟩] : Heap Nat) ⟨0, true, [], 0⟩ = true ∧
    pairOK ([some ⟨2, 1, [5, 6]⟩] : Heap Nat) ⟨0, true, [], 0⟩ ⟨2, false, [], 0⟩
      = true ∧ 0 ≤ 2 ∧ 0 ≤ 1 ∧ 1 ≤ 2 ∧
    (obsOf 1 (pushBack 1
        (assign ([some ⟨2, 1, [5, 6]⟩] : Heap Nat) ⟨0, true, [], 0⟩ ⟨2, false, [], 0⟩).1
        (assign ([some ⟨2, 1, [5, 6]⟩] : Heap Nat) ⟨0, true, [], 0⟩ ⟨2, false, [], 0⟩).2
        9).1 ⟨2, false, [], 0⟩ =
      obsOf 1 ([some ⟨2, 1, [5, 6]⟩] : Heap Nat) ⟨2, false, [], 0⟩ ∧
     obsOf 1 (popBack 1
        (assign ([some ⟨2, 1, [5, 6]⟩] : Heap Nat) ⟨0, true, [], 0⟩ ⟨2, false, [], 0⟩).1
        (assign ([some ⟨2, 1, [5, 6]⟩] : Heap Nat) ⟨0, true, [], 0⟩ ⟨2, false, [], 0⟩).2).1
        ⟨2, false, [], 0⟩ =
      obsOf 1 ([some ⟨2, 1, [5, 6]⟩] : Heap Nat) ⟨2, false, [], 0⟩ ∧
     obsOf 1 (insert 1
        (assign ([some ⟨2, 1, [5, 6]⟩] : Heap Nat) ⟨0, true, [], 0⟩ ⟨2, false, [], 0⟩).1
        (assign ([some ⟨2, 1, [5, 6]⟩] : Heap Nat) ⟨0, true, [], 0⟩ ⟨2, false, [], 0⟩).2
        0 9).1 ⟨2, false, [], 0⟩ =
      obsOf 1 ([some ⟨2, 1, [5, 6]⟩] : Heap Nat) ⟨2, false, [], 0⟩ ∧
     obsOf 1 (eraseRange 1
        (assign ([some ⟨2, 1, [5, 6]⟩] : Heap Nat) ⟨0, true, [], 0⟩ ⟨2, false, [], 0⟩).1
        (assign ([some ⟨2, 1, [5, 6]⟩] : Heap Nat) ⟨0, true, [], 0⟩ ⟨2, false, [], 0⟩).2
        0 1).1 ⟨2, false, [], 0⟩ =
      obsOf 1 ([some ⟨2, 1, [5, 6]⟩] : Heap Nat) ⟨2, false, [], 0⟩ ∧
     obsOf 1 (clear
        (assign ([some ⟨2, 1, [5, 6]⟩] : Heap Nat) ⟨0, true, [], 0⟩ ⟨2, false, [], 0⟩).1
        (assign ([some ⟨2, 1, [5, 6]⟩] : Heap Nat) ⟨0, true, [], 0⟩ ⟨2, false, [], 0⟩).2).1
        ⟨2, false, [], 0⟩ =
      obsOf 1 ([some ⟨2, 1, [5, 6]⟩] : Heap Nat) ⟨2, false, [], 0⟩ ∧
     obsOf 1 (reserve 1
        (assign ([some ⟨2, 1, [5, 6]⟩] : Heap Nat) ⟨0, true, [], 0⟩ ⟨2, false, [], 0⟩).1
        (assign ([some ⟨2, 1, [5, 6]⟩] : Heap Nat) ⟨0, true, [], 0⟩ ⟨2, false, [], 0⟩).2
        4).1 ⟨2, false, [], 0⟩ =
      obsOf 1 ([some ⟨2, 1, [5, 6]⟩] : Heap Nat) ⟨2, false, [], 0⟩ ∧
     obsOf 1 (shrinkToFit 1
        (assign ([some ⟨2, 1, [5, 6]⟩] : Heap Nat) ⟨0, true, [], 0⟩ ⟨2, false, [], 0⟩).1
        (assign ([some ⟨2, 1, [5, 6]⟩] : Heap Nat) ⟨0, true, [], 0⟩ ⟨2, false, [], 0⟩).2).1
        ⟨2, false, [], 0⟩ =
      obsOf 1 ([some ⟨2, 1, [5, 6]⟩] : Heap Nat) ⟨2, false, [], 0⟩) :=
  ⟨by decide, by decide, by decide, by decide, by decide, by decide, by decide,
   by decide,
   claim_C1 1 ([some ⟨2, 1, [5, 6]⟩] : Heap Nat) ⟨2, false, [], 0⟩ ⟨0, true, [], 0⟩
     9 0 4 0 1 (by decide) (by decide) (by decide) (by decide) (by decide)
     (by decide) (by decide) (by decide)⟩

/-- C4: `size() ≤ capacity()` holds after every public operation:
construction, copy construction, copy-assignment, `push_back`, `pop_back`,
`insert`, `erase`, `reserve`, `shrink_to_fit`, `clear`, and `swap` (for
well-formed instances and valid arguments; `0 < N` rules out the degenerate
`SMALL_SIZE = 0` instantiation whose growth arithmetic would overflow the
buffer in the C++ source). -/
theorem claim_C4 (N : Nat) (h : Heap V) (v s : Vec V) (x : V)
    (pos c left right : Nat)
    (hw : wfB N h v = true) (hN : 0 < N) (hws : wfB N h s = true)
    (hp : pairOK h v s = true) (hpos : pos ≤ v.size) (hlr : left ≤ right)
    (hr : right ≤ v.size) :
    ((⟨0, true, ([] : List V), 0⟩ : Vec V)).size ≤
      capOf N h (⟨0, true, ([] : List V), 0⟩ : Vec V) ∧
    ((copyCtor h s).2).size ≤ capOf N (copyCtor h s).1 (copyCtor h s).2 ∧
    ((assign h v s).2).size ≤ capOf N (assign h v s).1 (assign h v s).2 ∧
    ((pushBack N h v x).2).size ≤
      capOf N (pushBack N h v x).1 (pushBack N h v x).2 ∧
    ((popBack N h v).2).size ≤ capOf N (popBack N h v).1 (popBack N h v).2 ∧
    ((insert N h v pos x).2.1).size ≤
      capOf N (insert N h v pos x).1 (insert N h v pos x).2.1 ∧
    ((eraseRange N h v left right).2.1).size ≤
      capOf N (eraseRange N h v left right).1 (eraseRange N h v left right).2.1 ∧
    ((reserve N h v c).2).size ≤ capOf N (reserve N h v c).1 (reserve N h v c).2 ∧
    ((shrinkToFit N h v).2).size ≤
      capOf N (shrinkToFit N h v).1 (shrinkToFit N h v).2 ∧
    ((clear h v).2).size ≤ capOf N (clear h v).1 (clear h v).2 ∧
    ((swapV h v s).2.1).size ≤ capOf N (swapV h v s).1 (swapV h v s).2.1 ∧
    ((swapV h v s).2.2).size ≤ capOf N (swapV h v s).1 (swapV h v s).2.2 := by
  obtain ⟨_, _, w1, w2, _⟩ := swapV_exchange hw hws hp
  refine ⟨?_, ?_, ?_, ?_, ?_, ?_, ?_, ?_, ?_, ?_, ?_, ?_⟩
  · exact wf_size_le_cap (wf_default N h)
  · exact wf_size_le_cap
      (assign_wf (wf_default N h) hws (pairOK_of_small_left rfl))
  · exact wf_size_le_cap (assign_wf hw hws hp)
  · exact wf_size_le_cap (insert_wf hw hN (Nat.le_refl v.size))
  · exact wf_size_le_cap (erase_wf hw (by omega) (Nat.le_refl v.size))
  · exact wf_size_le_cap (insert_wf hw hN hpos)
  · exact wf_size_le_cap (erase_wf hw hlr hr)
  · exact wf_size_le_cap (reserve_wf c hw)
  · exact wf_size_le_cap (shrink_wf hw)
  · exact wf_size_le_cap (clear_wf hw)
  · exact wf_size_le_cap w1
  · exact wf_size_le_cap w2

theorem claim_C4_witness :
    wfB 1 ([] : Heap Nat) ⟨1, true, [4], 0⟩ = true ∧ 0 < 1 ∧
    wfB 1 ([] : Heap Nat) ⟨0, true, [], 0⟩ = true ∧
    pairOK ([] : Heap Nat) ⟨1, true, [4], 0⟩ ⟨0, true, [], 0⟩ = true ∧
    0 ≤ 1 ∧ 0 ≤ 1 ∧ 1 ≤ 1 ∧
    (((⟨0, true, ([] : List Nat), 0⟩ : Vec Nat)).size ≤
      capOf 1 ([] : Heap Nat) (⟨0, true, ([] : List Nat), 0⟩ : Vec Nat) ∧
     ((copyCtor ([] : Heap Nat) (⟨0, true, [], 0⟩ : Vec Nat)).2).size ≤
      capOf 1 (copyCtor ([] : Heap Nat) (⟨0, true, [], 0⟩ : Vec Nat)).1
        (copyCtor ([] : Heap Nat) (⟨0, true, [], 0⟩ : Vec Nat)).2 ∧
     ((assign ([] : Heap Nat) ⟨1, true, [4], 0⟩ ⟨0, true, [], 0⟩).2).size ≤
      capOf 1 (assign ([] : Heap Nat) ⟨1, true, [4], 0⟩ ⟨0, true, [], 0⟩).1
        (assign ([] : Heap Nat) ⟨1, true, [4], 0⟩ ⟨0, true, [], 0⟩).2 ∧
     ((pushBack 1 ([] : Heap Nat) ⟨1, true, [4], 0⟩ 9).2).size ≤
      capOf 1 (pushBack 1 ([] : Heap Nat) ⟨1, true, [4], 0⟩ 9).1
        (pushBack 1 ([] : Heap Nat) ⟨1, true, [4], 0⟩ 9).2 ∧
     ((popBack 1 ([] : Heap Nat) ⟨1, true, [4], 0⟩).2).size ≤
      capOf 1 (popBack 1 ([] : Heap Nat) ⟨1, true, [4], 0⟩).1
        (popBack 1 ([] : Heap Nat) ⟨1, true, [4], 0⟩).2 ∧
     ((insert 1 ([] : Heap Nat) ⟨1, true, [4], 0⟩ 0 9).2.1).size ≤
      capOf 1 (insert 1 ([] : Heap Nat) ⟨1, true, [4], 0⟩ 0 9).1
        (insert 1 ([] : Heap Nat) ⟨1, true, [4], 0⟩ 0 9).2.1 ∧
     ((eraseRange 1 ([] : Heap Nat) ⟨1, true, [4], 0⟩ 0 1).2.1).size ≤
      capOf 1 (eraseRange 1 ([] : Heap Nat) ⟨1, true, [4], 0⟩ 0 1).1
        (eraseRange 1 ([] : Heap Nat) ⟨1, true, [4], 0⟩ 0 1).2.1 ∧
     ((reserve 1 ([] : Heap Nat) ⟨1, true, [4], 0⟩ 7).2).size ≤
      capOf 1 (reserve 1 ([] : Heap Nat) ⟨1, true, [4], 0⟩ 7).1
        (reserve 1 ([] : Heap Nat) ⟨1, true, [4], 0⟩ 7).2 ∧
     ((shrinkToFit 1 ([] : Heap Nat) ⟨1, true, [4], 0⟩).2).size ≤
      capOf 1 (shrinkToFit 1 ([] : Heap Nat) ⟨1, true, [4], 0⟩).1
        (shrinkToFit 1 ([] : Heap Nat) ⟨1, true, [4], 0⟩).2 ∧
     ((clear ([] : Heap Nat) (⟨1, true, [4], 0⟩ : Vec Nat)).2).size ≤
      capOf 1 (clear ([] : Heap Nat) (⟨1, true, [4], 0⟩ : Vec Nat)).1
        (clear ([] : Heap Nat) (⟨1, true, [4], 0⟩ : Vec Nat)).2 ∧
     ((swapV ([] : Heap Nat) ⟨1, true, [4], 0⟩ ⟨0, true, [], 0⟩).2.1).size ≤
      capOf 1 (swapV ([] : Heap Nat) ⟨1, true, [4], 0⟩ ⟨0, true, [], 0⟩).1
        (swapV ([] : Heap Nat) ⟨1, true, [4], 0⟩ ⟨0, true, [], 0⟩).2.1 ∧
     ((swapV ([] : Heap Nat) ⟨1, true, [4], 0⟩ ⟨0, true, [], 0⟩).2.2).size ≤
      capOf 1 (swapV ([] : Heap Nat) ⟨1, true, [4], 0⟩ ⟨0, true, [], 0⟩).1
        (swapV ([] : Heap Nat) ⟨1, true, [4], 0⟩ ⟨0, true, [], 0⟩).2.2) :=
  ⟨by decide, by decide, by decide, by decide, by decide, by decide, by decide,
   claim_C4 1 ([] : Heap Nat) ⟨1, true, [4], 0⟩ ⟨0, true, [], 0⟩ 9 0 7 0 1
     (by decide) (by decide) (by decide) (by decide) (by decide) (by decide)
     (by decide)⟩

end Socow
